import Mathlib

/-!
Verification development for the robust solid-combination engine of the
splint_geo_processor repository.  The definitions below are a shallow
embedding of `src/generators/src/BrepUnion.py`,
`src/generators/src/BrepDifference.py` and
`src/generators/src/cmpJiggleUnion.py`.

Modelling conventions:
* Machine floats of the source become rationals (`ℚ`); the code only
  compares, adds, subtracts, multiplies and divides volumes/tolerances.
* A `Brep` is the record of observable attributes the engine reads from a
  solid (validity / solidity / manifoldness flags, naked-edge count, face
  count) plus a coarse position used to model rigid translation.
* The external Rhino geometry kernel (all `rg.Brep.*`, `rg.Intersect.*`,
  `rg.Mesh.*` calls, plus `sc.doc` tolerances) is an explicit `Kernel`
  record of functions.  A kernel call that may throw or return null is a
  function into `Option`; the engine's bare `except: pass` handlers map
  `none` to the same fall-through behaviour as a null result, exactly as in
  the source.  `get_brep_volume`'s duck-typing shim (float / tuple /
  mass-property fallback) is abstracted to the single normalised
  `Kernel.getVolume : Brep → Option ℚ`.
* The source reports the winning strategy as a formatted string
  (`"MultiUnion(tol=...)"`, `"Imperfect(NotSolid,...)"`, ...).  Labels are
  embedded as the inductive `Method`, one constructor per distinct format
  string, carrying the data the string interpolates (tolerance, offset,
  defect list); the string "None" is `Method.noneLabel`.
* Defect strings (`"NotValid"`, `"NakedEdges=n"`, `"VolumeError=p%"`, ...)
  are embedded as the inductive `Issue` carrying the interpolated number.
  For `VolumeError` the carried rational is the number the format string
  displays after `=` (sign included), which is what
  `float(issue.split("=")[1].rstrip("%"))` in BrepUnion.py strategy 6
  parses back.
* Logging (`log(...)`, `print(...)`) is an external append-only text sink
  with no influence on control flow and is omitted.
-/

/-- A 3D vector / point with rational coordinates. -/
abbrev Vec3 := ℚ × ℚ × ℚ

/-- A 3D point (cmpJiggleUnion's interior test points). -/
abbrev Point := Vec3

def vadd (a b : Vec3) : Vec3 := (a.1 + b.1, a.2.1 + b.2.1, a.2.2 + b.2.2)

def vsmul (c : ℚ) (v : Vec3) : Vec3 := (c * v.1, c * v.2.1, c * v.2.2)

def vzero : Vec3 := (0, 0, 0)

/-- Observable state of a solid body, as read by the combination engine:
`IsValid`, `IsSolid`, `IsManifold`, the naked-edge count
(`sum(1 for e in Edges if e.Valence == Naked)`), `Faces.Count`, and a
coarse rigid position modelling what `Transform(Translation(v))` moves. -/
structure Brep where
  isValid : Bool
  isSolid : Bool
  isManifold : Bool
  nakedEdges : Nat
  faceCount : Nat
  pos : Vec3
deriving DecidableEq

/-- One face-face intersection curve as seen by the self-intersection
heuristic of `validate_union_result_multi`: either a null entry of the
returned curve array (`if crv:` fails), or a curve described by the
distance from its sampled parameter point to the nearest edge of the
result brep (`none` = no edge at all, i.e. the `float('inf')` start value
survives). -/
inductive CurveInfo where
  | nullCurve
  | curve (distAt : ℚ → Option ℚ)

/-- The external geometry kernel interface (Rhino), §2 of the spec.
Fallible / nullable calls return `Option`. -/
structure Kernel where
  getVolume : Brep → Option ℚ
  booleanIntersection : Brep → Brep → ℚ → Option (List Brep)
  booleanIntersectionList : Brep → Brep → ℚ → Option (List Brep)
  booleanDifference : Brep → Brep → ℚ → Option (List Brep)
  booleanDifferenceList : Brep → Brep → ℚ → Option (List Brep)
  booleanUnion : List Brep → ℚ → Option (List Brep)
  booleanUnion3 : List Brep → ℚ → Bool → Option (List Brep)
  joinBreps : List Brep → ℚ → Option (List Brep)
  meshUnion : Brep → Brep → Option Brep
  surfaceSurface : Brep → Nat → Nat → ℚ → Option (Bool × List CurveInfo)
  repair : Brep → ℚ → Brep
  splitKinky : Brep → Brep
  compact : Brep → Brep
  translate : Brep → Vec3 → Brep
  isPointInside : Brep → Point → ℚ → Bool → Bool
  samplePointsInside : Brep → Nat → Option (List Point)
  volumeMass : Brep → Option ℚ
  docTolerance : ℚ

/-- A named defect produced by the validators (one constructor per format
string of the source). -/
inductive Issue where
  | notValid
  | notSolid
  | notManifold
  | nakedEdges (n : Nat)
  | selfIntersections (n : Nat)
  | volumeError (pct : ℚ)
  | nothingSubtracted
  | noResult
deriving DecidableEq

/-- Which ordering strategy 5 of `robust_brep_union` tried. -/
inductive OrderName where
  | seqForward
  | seqReverse
  | splitHalves
deriving DecidableEq

/-- The method label of a combination outcome, one constructor per format
string the source returns as `method_used`. -/
inductive Method where
  | noneLabel
  | singleBrep
  | multiUnion (tol : ℚ)
  | jiggled (offset : ℚ)
  | repaired
  | ordered (name : OrderName)
  | sequential
  | mesh
  | difference (tol : ℚ)
  | differenceList (tol : ℚ)
  | imperfect (issues : List Issue)
deriving DecidableEq

/-- Which operand precondition of `robust_brep_difference` failed
(the four `InvalidBrepError` messages). -/
inductive OperandFault where
  | minuendNone
  | subtrahendNone
  | minuendInvalid
  | subtrahendInvalid
deriving DecidableEq

/-- The typed errors `robust_brep_difference` can raise.  `typeError`
models the uncaught Python `TypeError` of
`expected_result_vol = minuend_vol - intersection_vol` when
`get_brep_volume(minuend)` returned `None`.  `exhausted` is
`BrepDifferenceError` and carries the volume summary interpolated into its
message. -/
inductive DiffError where
  | invalidBrep (fault : OperandFault)
  | noIntersection
  | typeError
  | exhausted (minuendVol subtrahendVol intersectionVol : ℚ)
deriving DecidableEq

deriving instance DecidableEq for Except

/-- `(result_brep, success, method_used)` as returned by the engines. -/
abbrev Outcome := Brep × Bool × Method

/-- `get_brep_volume` (both files): normalised volume of a brep, `none` on
failure.  The duck-typing over GetVolume's return shape is abstracted into
the kernel adapter. -/
def get_brep_volume (K : Kernel) (b : Brep) : Option ℚ :=
  K.getVolume b

/-- `get_total_volume` (BrepUnion.py): sums the volumes of the inputs,
skipping falsy (`None` or `0.0`) volumes. -/
def get_total_volume (K : Kernel) (breps : List Brep) : ℚ :=
  breps.foldl (fun total b =>
    match get_brep_volume K b with
    | some v => if v ≠ 0 then total + v else total
    | none => total) 0

/-- `get_intersection_volume` (BrepUnion.py): volume of the first piece of
the list-API boolean intersection; `0.0` when the kernel returns null or
an empty array or throws; may be `None` when the piece has no volume. -/
def get_intersection_volume (K : Kernel) (a b : Brep) (tol : ℚ) : Option ℚ :=
  match K.booleanIntersectionList a b tol with
  | some (p :: _) => get_brep_volume K p
  | some [] => some 0
  | none => some 0

/-- `compute_intersection_volume` (BrepDifference.py): total volume of all
pieces of the (pair-API) boolean intersection, skipping falsy piece
volumes; `0.0` when the kernel returns null / empty or throws. -/
def compute_intersection_volume (K : Kernel) (a b : Brep) (tol : ℚ) : ℚ :=
  match K.booleanIntersection a b tol with
  | some [] => 0
  | some ps =>
      ps.foldl (fun total p =>
        match get_brep_volume K p with
        | some v => if v ≠ 0 then total + v else total
        | none => total) 0
  | none => 0

/-- `get_brep_volume(b) or 0`: the sort key of Python's
`max(result, key=lambda b: get_brep_volume(b) or 0)`. -/
def volKey (K : Kernel) (b : Brep) : ℚ :=
  (get_brep_volume K b).getD 0

/-- Python's `max(b0 :: rest, key=volKey)`: keeps the first element of
maximal key (a later element replaces the current only when strictly
greater). -/
def pyMaxByVol (K : Kernel) (b0 : Brep) (rest : List Brep) : Brep :=
  rest.foldl (fun acc b => if volKey K b > volKey K acc then b else acc) b0

/-- All index pairs `(i, j)` with `i, j < n` in the order produced by the
nested `for i ... for j ...` loops of the source. -/
def allIndexPairs (n : Nat) : List (Nat × Nat) :=
  (List.range n).flatMap (fun i => (List.range n).map (fun j => (i, j)))

/-- The pairs the source actually processes: those with `i < j`, in loop
order (equals Python's `for i in range(n): for j in range(i+1, n)`). -/
def indexPairs (n : Nat) : List (Nat × Nat) :=
  (allIndexPairs n).filter (fun p => p.1 < p.2)

/-- `base_tolerance is None or base_tolerance <= 0` defaulting to
`sc.doc.ModelAbsoluteTolerance` (both files). -/
def resolveTol (K : Kernel) (bt : Option ℚ) : ℚ :=
  match bt with
  | none => K.docTolerance
  | some t => if t ≤ 0 then K.docTolerance else t

/-- The curve-parameter fractions at which the self-intersection heuristic
samples each face-face intersection curve.  The source samples exactly one
point, the domain midpoint:
`test_pt = crv.PointAt(crv.Domain.ParameterAt(0.5))` (BrepUnion.py, line
100). -/
def curveSampleFractions : List ℚ := [1/2]

/-- `closest_edge_dist > 0.1`: interior-intersection test at one sampled
point.  `none` is the `float('inf')` the minimisation starts from (a brep
with no edges), which also exceeds the threshold. -/
def distExceeds (d : Option ℚ) : Bool :=
  match d with
  | none => true
  | some q => decide (q > 1/10)

/-- Whether one intersection curve triggers the interior classification:
null curves are skipped, real curves offend when a sampled point is
farther than 0.1 from every edge. -/
def curveOffends (c : CurveInfo) : Bool :=
  match c with
  | CurveInfo.nullCurve => false
  | CurveInfo.curve distAt => curveSampleFractions.any (fun t => distExceeds (distAt t))

/-- Whether the face pair `(i, j)` contributes one self-intersection
defect: the surface-surface intersection call must succeed (an exception
skips the pair), report success, and return a curve list with an offending
curve; the `break` after the first offending curve caps the contribution
at one per pair. -/
def pairOffends (K : Kernel) (b : Brep) (i j : Nat) : Bool :=
  match K.surfaceSurface b i j (1/100) with
  | none => false
  | some (ok, curves) => ok && curves.any curveOffends

/-- The nested face loops of `validate_union_result_multi` (lines 84-111):
every `(i, j)` pair of face indices is visited in lexicographic order, the
body runs only while `i < j and checks_done < max_checks`, incrementing
`checks_done` each time and `self_intersect_count` on offending pairs. -/
def selfIntersectScan (K : Kernel) (b : Brep) (maxChecks : Nat) : Nat × Nat :=
  (allIndexPairs b.faceCount).foldl
    (fun acc p =>
      if p.1 < p.2 ∧ acc.1 < maxChecks then
        (acc.1 + 1, acc.2 + (if pairOffends K b p.1 p.2 then 1 else 0))
      else acc)
    (0, 0)

/-- `max_checks = min(50, (face_count * (face_count - 1)) // 2)`. -/
def maxChecksFor (faceCount : Nat) : Nat :=
  min 50 (faceCount * (faceCount - 1) / 2)

/-- The `self_intersect_count` the validator ends up with. -/
def selfIntersectCount (K : Kernel) (b : Brep) : Nat :=
  (selfIntersectScan K b (maxChecksFor b.faceCount)).2

instance : Inhabited Brep := ⟨⟨false, false, false, 0, 0, vzero⟩⟩

/-- The pairwise `total_intersection_volume` accumulation of
`validate_union_result_multi` (lines 122-130): for `i < j`, add the
truthy list-API intersection volumes. -/
def totalIntersectionVolume (K : Kernel) (inputs : List Brep) (tol : ℚ) : ℚ :=
  (indexPairs inputs.length).foldl (fun total p =>
    match get_intersection_volume K (inputs.getD p.1 default)
        (inputs.getD p.2 default) tol with
    | some v => if v ≠ 0 then total + v else total
    | none => total) 0

/-- `validate_union_result_multi` (BrepUnion.py lines 55-146): basic
topology, naked edges, bounded self-intersection sampling, and the
pairwise-approximate volume-conservation check.  Returns
`(len(issues) == 0, issues)`. -/
def validate_union_result_multi (K : Kernel) (result_brep : Brep)
    (input_breps : List Brep) (tolerance_pct : ℚ) (base_tolerance : ℚ) :
    Bool × List Issue :=
  let basic :=
    (if !result_brep.isValid then [Issue.notValid] else [])
    ++ (if !result_brep.isSolid then [Issue.notSolid] else [])
    ++ (if !result_brep.isManifold then [Issue.notManifold] else [])
    ++ (if result_brep.nakedEdges > 0 then [Issue.nakedEdges result_brep.nakedEdges] else [])
  let si := selfIntersectCount K result_brep
  let siIssues := if si > 0 then [Issue.selfIntersections si] else []
  let volIssues :=
    match get_brep_volume K result_brep with
    | none => []
    | some result_volume =>
      let total_input_volume := get_total_volume K input_breps
      if total_input_volume > 0 then
        let expected_volume :=
          total_input_volume - totalIntersectionVolume K input_breps base_tolerance
        if expected_volume > 0 then
          let volume_ratio := result_volume / expected_volume
          if volume_ratio < 1 - tolerance_pct / 100 then
            [Issue.volumeError ((1 - volume_ratio) * 100)]
          else if volume_ratio > 1 + tolerance_pct / 100 then
            [Issue.volumeError ((volume_ratio - 1) * 100)]
          else []
        else []
      else []
  let issues := basic ++ siIssues ++ volIssues
  (issues.isEmpty, issues)

/-- `attempt_multi_union` (lines 148-156): one all-at-once kernel union,
returning the first brep of the result array. -/
def attempt_multi_union (K : Kernel) (breps : List Brep) (tol : ℚ) : Option Brep :=
  match K.booleanUnion breps tol with
  | some (r :: _) => some r
  | _ => none

/-- `attempt_mesh_union` (lines 158-186): the mesh round-trip fallback,
abstracted to the kernel's mesh-union pipeline. -/
def attempt_mesh_union (K : Kernel) (a b : Brep) : Option Brep :=
  K.meshUnion a b

/-- The jiggle offsets of union strategy 3: `[0.01, 0.05]` mm. -/
def unionJiggleOffsets : List ℚ := [1/100, 1/20]

/-- The jiggle directions of union strategy 3: diagonal `(0.577, 0.577,
0.577)` and the Z axis. -/
def unionJiggleVectors : List Vec3 := [(577/1000, 577/1000, 577/1000), (0, 0, 1)]

/-- Union strategy 2 (lines 272-293), run only after a `NoResult` first
attempt: escalate through the fixed tolerances `0.01` and `0.1`, skipping
any not above the base tolerance, accepting the first cleanly validated
result (validation at 10 %). -/
def unionStrategy2 (K : Kernel) (breps : List Brep) (base_tolerance : ℚ) :
    List ℚ → Option Outcome
  | [] => none
  | t :: ts =>
    if t ≤ base_tolerance then unionStrategy2 K breps base_tolerance ts
    else
      match attempt_multi_union K breps t with
      | none => unionStrategy2 K breps base_tolerance ts
      | some r =>
        let v := validate_union_result_multi K r breps 10 (1/1000)
        if v.1 then some (r, true, Method.multiUnion t)
        else unionStrategy2 K breps base_tolerance ts

/-- One jiggle trial of union strategy 3 (lines 309-328): duplicate the
last brep, translate the duplicate by `vec * offset`, union everything at
tolerance `0.01`, translate the result back by `vec * -offset`, then
validate the restored result against the original operands at 15 %. -/
def unionJiggleAttempt (K : Kernel) (breps : List Brep) (offset : ℚ)
    (vec : Vec3) : Option Outcome :=
  match breps.getLast? with
  | none => none
  | some lastB =>
    let jiggled := breps.dropLast ++ [K.translate lastB (vsmul offset vec)]
    match attempt_multi_union K jiggled (1/100) with
    | none => none
    | some r0 =>
      let r := K.translate r0 (vsmul (-offset) vec)
      let v := validate_union_result_multi K r breps 15 (1/1000)
      if v.1 then some (r, true, Method.jiggled offset) else none

/-- Union strategy 3 (lines 295-330), run only when the first attempt
reported self-intersections: try every (offset, direction) pair in order,
returning the first accepted jiggle trial. -/
def unionStrategy3 (K : Kernel) (breps : List Brep) : Option Outcome :=
  (unionJiggleOffsets.flatMap (fun o => unionJiggleVectors.map (fun v => (o, v)))).findSome?
    (fun p => unionJiggleAttempt K breps p.1 p.2)

/-- The per-brep repair chain of union strategy 4 (lines 340-347):
duplicate, `Repair` only when invalid, then `SplitKinkyFaces` and
`Compact`. -/
def unionRepairBrep (K : Kernel) (base_tolerance : ℚ) (b : Brep) : Brep :=
  K.compact (K.splitKinky (if b.isValid then b else K.repair b base_tolerance))

/-- Union strategy 4 (lines 332-360), run only when the first attempt had
a volume error and no self-intersections: repair the operands and union at
ten times the base tolerance, validating at 15 %. -/
def unionStrategy4 (K : Kernel) (breps : List Brep) (base_tolerance : ℚ) :
    Option Outcome :=
  let fixed := breps.map (unionRepairBrep K base_tolerance)
  match attempt_multi_union K fixed (base_tolerance * 10) with
  | none => none
  | some r =>
    let v := validate_union_result_multi K r breps 15 (1/1000)
    if v.1 then some (r, true, Method.repaired) else none

/-- The sequential pairwise union of strategy 5 along an index order
(lines 405-416): start from a duplicate of the first indexed brep, union
in the remaining ones pairwise at ten times the base tolerance, failing as
soon as one pairwise union fails. -/
def sequentialUnionOrder (K : Kernel) (breps : List Brep) (tol : ℚ) :
    List Nat → Option Brep
  | [] => none
  | i0 :: rest =>
    rest.foldl (fun acc i =>
      match acc with
      | none => none
      | some r => attempt_multi_union K [r, breps.getD i default] tol)
      (some (breps.getD i0 default))

/-- The balanced split of strategy 5 (lines 384-403): union each half at
ten times the base tolerance, then union the two partial results. -/
def splitHalvesUnion (K : Kernel) (breps : List Brep) (tol : ℚ) : Option Brep :=
  let mid := breps.length / 2
  match attempt_multi_union K (breps.take mid) tol with
  | none => none
  | some r1 =>
    match attempt_multi_union K (breps.drop mid) tol with
    | none => none
    | some r2 => attempt_multi_union K [r1, r2] tol

/-- The ordering catalogue of strategy 5 (lines 370-379): forward and
reverse sequential always; the balanced split only for even counts of at
least four. -/
def unionOrderings (n : Nat) : List OrderName :=
  [OrderName.seqForward, OrderName.seqReverse]
  ++ (if n % 2 = 0 ∧ 4 ≤ n then [OrderName.splitHalves] else [])

/-- Run one ordering of strategy 5. -/
def runOrdering (K : Kernel) (breps : List Brep) (base_tolerance : ℚ) :
    OrderName → Option Brep
  | OrderName.seqForward =>
      sequentialUnionOrder K breps (base_tolerance * 10) (List.range breps.length)
  | OrderName.seqReverse =>
      sequentialUnionOrder K breps (base_tolerance * 10)
        (List.range breps.length).reverse
  | OrderName.splitHalves => splitHalvesUnion K breps (base_tolerance * 10)

/-- Union strategy 5 (lines 362-431): try each ordering, validating each
produced result at 10 % and accepting the first clean one. -/
def unionStrategy5 (K : Kernel) (breps : List Brep) (base_tolerance : ℚ) :
    Option Outcome :=
  (unionOrderings breps.length).findSome? (fun name =>
    match runOrdering K breps base_tolerance name with
    | none => none
    | some r =>
      let v := validate_union_result_multi K r breps 10 (1/1000)
      if v.1 then some (r, true, Method.ordered name) else none)

/-- One step of union strategy 6 (lines 444-468): pairwise union at ten
times the base tolerance, retrying once at `0.1` (the intermediate
validation at line 454 only alters the log; both branches keep the new
result). -/
def seqStep (K : Kernel) (base_tolerance : ℚ) (result b : Brep) : Option Brep :=
  match attempt_multi_union K [result, b] (base_tolerance * 10) with
  | some t => some t
  | none => attempt_multi_union K [result, b] (1/10)

/-- The sequential accumulation loop of strategy 6: `break` on a step
where both tolerances fail, keeping the partial result built so far. -/
def seqLoop (K : Kernel) (base_tolerance : ℚ) (result : Brep) :
    List Brep → Brep
  | [] => result
  | b :: bs =>
    match seqStep K base_tolerance result b with
    | some t => seqLoop K base_tolerance t bs
    | none => result

/-- Union strategy 6 (lines 434-493): sequential pairwise union over all
operands, then a final strict validation at 10 % that rejects critical
issues (`NotValid`/`NotSolid`/`NotManifold`) and volume errors above 10 %,
accepting a clean result or a valid solid result with at most one
remaining issue, labeled `Sequential` either way. -/
def unionStrategy6 (K : Kernel) (breps : List Brep) (base_tolerance : ℚ) :
    Option Outcome :=
  match breps with
  | [] => none
  | b0 :: rest =>
    let result := seqLoop K base_tolerance b0 rest
    let v := validate_union_result_multi K result breps 10 (1/1000)
    let issues := v.2
    let hasMajorVolumeError := issues.any (fun i =>
      match i with
      | Issue.volumeError q => decide (q > 10)
      | _ => false)
    let hasCritical := issues.any (fun i =>
      match i with
      | Issue.notValid => true
      | Issue.notSolid => true
      | Issue.notManifold => true
      | _ => false)
    if hasMajorVolumeError || hasCritical then none
    else if v.1 then some (result, true, Method.sequential)
    else if result.isValid ∧ result.isSolid ∧ issues.length ≤ 1 then
      some (result, true, Method.sequential)
    else none

/-- Union strategy 7 (lines 495-515): for exactly two operands, the mesh
boolean fallback validated at 25 %. -/
def unionStrategy7 (K : Kernel) (breps : List Brep) : Option Outcome :=
  match breps with
  | [a, b] =>
    match attempt_mesh_union K a b with
    | none => none
    | some r =>
      let v := validate_union_result_multi K r breps 25 (1/1000)
      if v.1 then some (r, true, Method.mesh) else none
  | _ => none

/-- The `None`-and-invalid operand filter of `robust_brep_union` (lines
206-223): such operands are skipped with a warning, never an error. -/
def filterValidBreps (inputs : List (Option Brep)) : List Brep :=
  inputs.filterMap (fun ob =>
    match ob with
    | none => none
    | some b => if b.isValid then some b else none)

/-- The strategy cascade of `robust_brep_union` for two or more valid
operands (lines 229-527): direct multi-union first, then the
failure-mode-routed strategies 2-4, then orderings, the sequential
fallback, the mesh fallback, and finally the `(None, False, "None")`
failure outcome. -/
def robust_union_core (K : Kernel) (breps : List Brep) (tol : ℚ) :
    Option Brep × Bool × Method :=
  let first :=
    match attempt_multi_union K breps tol with
    | some r =>
      let v := validate_union_result_multi K r breps 5 (1/1000)
      if v.1 then Sum.inl ((r, true, Method.multiUnion tol) : Outcome)
      else Sum.inr v.2
    | none => Sum.inr [Issue.noResult]
  match first with
  | Sum.inl o => (some o.1, o.2.1, o.2.2)
  | Sum.inr first_issues =>
    let hasSelfIntersections := first_issues.any (fun i =>
      match i with
      | Issue.selfIntersections _ => true
      | _ => false)
    let hasNoResult := first_issues.contains Issue.noResult
    let hasVolumeErrorOnly := (first_issues.any (fun i =>
      match i with
      | Issue.volumeError _ => true
      | _ => false)) && !hasSelfIntersections
    match (if hasNoResult then unionStrategy2 K breps tol [1/100, 1/10] else none) with
    | some o => (some o.1, o.2.1, o.2.2)
    | none =>
    match (if hasSelfIntersections then unionStrategy3 K breps else none) with
    | some o => (some o.1, o.2.1, o.2.2)
    | none =>
    match (if hasVolumeErrorOnly then unionStrategy4 K breps tol else none) with
    | some o => (some o.1, o.2.1, o.2.2)
    | none =>
    match unionStrategy5 K breps tol with
    | some o => (some o.1, o.2.1, o.2.2)
    | none =>
    match unionStrategy6 K breps tol with
    | some o => (some o.1, o.2.1, o.2.2)
    | none =>
    match (if breps.length = 2 then unionStrategy7 K breps else none) with
    | some o => (some o.1, o.2.1, o.2.2)
    | none => (none, false, Method.noneLabel)

/-- `robust_brep_union` (BrepUnion.py lines 188-527).  `None` and invalid
operands are filtered out; no valid operand yields the failure triple; a
single valid operand is returned as-is; otherwise the strategy cascade
runs at the resolved tolerance.  The `check_volumes` parameter is accepted
exactly as in the source, which never reads it.  (The source's
backwards-compatibility wrapping of a bare brep into a one-element list is
outside this embedding: the operand list is taken directly.) -/
def robust_brep_union (K : Kernel) (inputs : List (Option Brep))
    (base_tolerance : Option ℚ) (check_volumes : Bool) :
    Option Brep × Bool × Method :=
  match filterValidBreps inputs with
  | [] => (none, false, Method.noneLabel)
  | [b] => (some b, true, Method.singleBrep)
  | b0 :: b1 :: rest =>
    robust_union_core K (b0 :: b1 :: rest) (resolveTol K base_tolerance)

/-- `validate_difference_result` (BrepDifference.py lines 63-114): basic
topology, naked edges, the `NothingSubtracted` check, and the volume-ratio
check against the precomputed intersection volume.  The Python guard
`if result_vol and minuend_vol:` skips all volume checks when either
volume is `None` or `0.0`.  The source also receives `subtrahend_brep`,
which its body never reads; that dead parameter is dropped here. -/
def validate_difference_result (K : Kernel) (result_brep minuend_brep : Brep)
    (intersection_vol : Option ℚ) (tolerance_pct : ℚ) : Bool × List Issue :=
  let basic :=
    (if !result_brep.isValid then [Issue.notValid] else [])
    ++ (if !result_brep.isSolid then [Issue.notSolid] else [])
    ++ (if !result_brep.isManifold then [Issue.notManifold] else [])
    ++ (if result_brep.nakedEdges > 0 then [Issue.nakedEdges result_brep.nakedEdges] else [])
  let volIssues :=
    match get_brep_volume K result_brep, get_brep_volume K minuend_brep with
    | some result_vol, some minuend_vol =>
      if result_vol ≠ 0 ∧ minuend_vol ≠ 0 then
        (if minuend_vol - result_vol < 1/1000 then [Issue.nothingSubtracted] else [])
        ++ (match intersection_vol with
            | some iv =>
              if iv > 0 then
                let expected_vol := minuend_vol - iv
                if expected_vol > 0 then
                  let volume_ratio := result_vol / expected_vol
                  if volume_ratio < 1 - tolerance_pct / 100 then
                    [Issue.volumeError (-((1 - volume_ratio) * 100))]
                  else if volume_ratio > 1 + tolerance_pct / 100 then
                    [Issue.volumeError ((volume_ratio - 1) * 100)]
                  else []
                else []
              else []
            | none => [])
      else []
    | _, _ => []
  let issues := basic ++ volIssues
  (issues.isEmpty, issues)

/-- `attempt_boolean_difference` (lines 117-136): pair-API kernel
difference; a single piece is returned directly; multiple pieces are first
joined at the operation tolerance, and when joining does not yield exactly
one body the largest piece by volume is returned instead. -/
def attempt_boolean_difference (K : Kernel) (minuend subtrahend : Brep)
    (tol : ℚ) : Option Brep :=
  match K.booleanDifference minuend subtrahend tol with
  | some (r :: rs) =>
    if rs = [] then some r
    else
      match K.joinBreps (r :: rs) tol with
      | some [j] => some j
      | _ => some (pyMaxByVol K r rs)
  | _ => none

/-- `attempt_difference_with_lists` (lines 139-150): list-API kernel
difference; a single piece is returned directly; multiple pieces go
straight to the largest piece, with no join attempt. -/
def attempt_difference_with_lists (K : Kernel) (minuend subtrahend : Brep)
    (tol : ℚ) : Option Brep :=
  match K.booleanDifferenceList minuend subtrahend tol with
  | some (r :: rs) => if rs = [] then some r else some (pyMaxByVol K r rs)
  | _ => none

/-- The best-imperfect-result tracking of `robust_brep_difference`:
`best_result`/`best_issues` replaced when the new attempt has strictly
fewer issues (or no best exists yet). -/
def updateBest (best : Option (Brep × List Issue)) (r : Brep)
    (issues : List Issue) : Option (Brep × List Issue) :=
  match best with
  | none => some (r, issues)
  | some (br, bi) =>
    if issues.length < bi.length then some (r, issues) else some (br, bi)

/-- The jiggle offsets of difference strategy 4: `[0.001, 0.005, 0.01]`. -/
def diffJiggleOffsets : List ℚ := [1/1000, 5/1000, 1/100]

/-- The jiggle directions of difference strategy 4: diagonal, Z axis, X
axis. -/
def diffJiggleVectors : List Vec3 :=
  [(577/1000, 577/1000, 577/1000), (0, 0, 1), (1, 0, 0)]

/-- One generic validated difference attempt with best tracking: on a
kernel result, accept cleanly validated results with the given label,
otherwise record the candidate in the best tracker. -/
def diffScore (K : Kernel) (minuend : Brep) (intersection_vol : ℚ)
    (tolerance_pct : ℚ) (label : Method) (best : Option (Brep × List Issue))
    (attempt : Option Brep) : Option Outcome × Option (Brep × List Issue) :=
  match attempt with
  | none => (none, best)
  | some r =>
    let v := validate_difference_result K r minuend (some intersection_vol) tolerance_pct
    if v.1 then (some (r, true, label), best)
    else (none, updateBest best r v.2)

/-- Difference strategy 3 (lines 252-273): tolerance escalation through
`[base*10, 0.01, 0.1]`, skipping tolerances not above the base, validating
at 15 %, with best tracking. -/
def diffEscalation (K : Kernel) (minuend subtrahend : Brep)
    (intersection_vol base_tolerance : ℚ) :
    List ℚ → Option (Brep × List Issue) → Option Outcome × Option (Brep × List Issue)
  | [], best => (none, best)
  | t :: ts, best =>
    if t ≤ base_tolerance then
      diffEscalation K minuend subtrahend intersection_vol base_tolerance ts best
    else
      match diffScore K minuend intersection_vol 15 (Method.difference t) best
          (attempt_boolean_difference K minuend subtrahend t) with
      | (some o, best') => (some o, best')
      | (none, best') =>
        diffEscalation K minuend subtrahend intersection_vol base_tolerance ts best'

/-- Difference strategy 4 (lines 275-307): for each (offset, direction)
pair, subtract a translated duplicate of the subtrahend at the base
tolerance, validating the raw result against the original operands at
15 % — the accepted result is returned as produced, with no reverse
translation. -/
def diffJiggleLoop (K : Kernel) (minuend subtrahend : Brep)
    (intersection_vol base_tolerance : ℚ) :
    List (ℚ × Vec3) → Option (Brep × List Issue) → Option Outcome × Option (Brep × List Issue)
  | [], best => (none, best)
  | p :: ps, best =>
    match diffScore K minuend intersection_vol 15 (Method.jiggled p.1) best
        (attempt_boolean_difference K minuend
          (K.translate subtrahend (vsmul p.1 p.2)) base_tolerance) with
    | (some o, best') => (some o, best')
    | (none, best') =>
      diffJiggleLoop K minuend subtrahend intersection_vol base_tolerance ps best'

/-- The (offset, direction) trial order of difference strategy 4: offsets
outermost. -/
def diffJigglePairs : List (ℚ × Vec3) :=
  diffJiggleOffsets.flatMap (fun o => diffJiggleVectors.map (fun v => (o, v)))

/-- Difference strategy 5 (lines 309-337): repair duplicates of both
operands (`SplitKinkyFaces` then `Compact`), subtract at ten times the
base tolerance, validate at 20 %. -/
def diffRepair (K : Kernel) (minuend subtrahend : Brep)
    (intersection_vol base_tolerance : ℚ)
    (best : Option (Brep × List Issue)) :
    Option Outcome × Option (Brep × List Issue) :=
  let fixed_minuend := K.compact (K.splitKinky minuend)
  let fixed_subtrahend := K.compact (K.splitKinky subtrahend)
  diffScore K minuend intersection_vol 20 Method.repaired best
    (attempt_boolean_difference K fixed_minuend fixed_subtrahend (base_tolerance * 10))

/-- Strategies 1-5 of `robust_brep_difference` in order, threading the
best-imperfect tracker; the first cleanly accepted outcome wins. -/
def diffStrategies (K : Kernel) (minuend subtrahend : Brep)
    (intersection_vol base_tolerance : ℚ) :
    Option Outcome × Option (Brep × List Issue) :=
  match diffScore K minuend intersection_vol 10 (Method.difference base_tolerance) none
      (attempt_boolean_difference K minuend subtrahend base_tolerance) with
  | (some o, b1) => (some o, b1)
  | (none, b1) =>
  match diffScore K minuend intersection_vol 10 (Method.differenceList base_tolerance) b1
      (attempt_difference_with_lists K minuend subtrahend base_tolerance) with
  | (some o, b2) => (some o, b2)
  | (none, b2) =>
  match diffEscalation K minuend subtrahend intersection_vol base_tolerance
      [base_tolerance * 10, 1/100, 1/10] b2 with
  | (some o, b3) => (some o, b3)
  | (none, b3) =>
  match diffJiggleLoop K minuend subtrahend intersection_vol base_tolerance
      diffJigglePairs b3 with
  | (some o, b4) => (some o, b4)
  | (none, b4) =>
    diffRepair K minuend subtrahend intersection_vol base_tolerance b4

/-- `robust_brep_difference` (BrepDifference.py lines 153-362).  Operand
preconditions first (`InvalidBrepError`), then the upfront intersection
check (`NoIntersectionError` below 0.001), then the strategy cascade; with
no clean accept, the best imperfect result is returned when it is at least
solid (labeled `Imperfect(<issues>)`), and otherwise `BrepDifferenceError`
carries the volume summary.  The `check_volumes` parameter is accepted
exactly as in the source, which never reads it. -/
def robust_brep_difference (K : Kernel) (minuend subtrahend : Option Brep)
    (base_tolerance : Option ℚ) (check_volumes : Bool) :
    Except DiffError Outcome :=
  match minuend with
  | none => Except.error (DiffError.invalidBrep OperandFault.minuendNone)
  | some m =>
  match subtrahend with
  | none => Except.error (DiffError.invalidBrep OperandFault.subtrahendNone)
  | some s =>
  if !m.isValid then Except.error (DiffError.invalidBrep OperandFault.minuendInvalid)
  else if !s.isValid then Except.error (DiffError.invalidBrep OperandFault.subtrahendInvalid)
  else
    let tol := resolveTol K base_tolerance
    let minuend_vol := get_brep_volume K m
    let subtrahend_vol := get_brep_volume K s
    let intersection_vol := compute_intersection_volume K m s tol
    if intersection_vol < 1/1000 then Except.error DiffError.noIntersection
    else
      match minuend_vol with
      | none => Except.error DiffError.typeError
      | some mv =>
        match diffStrategies K m s intersection_vol tol with
        | (some o, _) => Except.ok o
        | (none, some (br, bi)) =>
          if br.isSolid then Except.ok (br, true, Method.imperfect bi)
          else Except.error (DiffError.exhausted mv (subtrahend_vol.getD 0) intersection_vol)
        | (none, none) =>
          Except.error (DiffError.exhausted mv (subtrahend_vol.getD 0) intersection_vol)

/-!
Aliasing model.  Python breps are mutable objects: `b.Transform(...)`,
`b.Repair(...)`, `b.Faces.SplitKinkyFaces(...)` mutate `b` in place, while
`b.Duplicate()` creates an independent copy.  To reason about which
objects a strategy mutates, the relevant code paths are re-embedded over
an explicit store of brep cells: a reference is an index, `Duplicate`
allocates a fresh cell, and an in-place mutation writes its cell.
-/

/-- The mutable heap of brep objects. -/
abbrev Store := List Brep

/-- A reference to a brep object. -/
abbrev Ref := Nat

def readRef (s : Store) (r : Ref) : Brep := s.getD r default

def writeRef (s : Store) (r : Ref) (b : Brep) : Store := s.set r b

/-- `b.Duplicate()`: allocate a fresh cell holding a copy. -/
def allocRef (s : Store) (b : Brep) : Store × Ref := (s ++ [b], s.length)

/-- Union strategy 3's jiggle trial over the store (BrepUnion.py lines
309-328): `jiggled_breps = breps[:-1] + [breps[-1].Duplicate()]` aliases
every operand but the last and mutates only the fresh duplicate; the
accepted result is a kernel output translated back, never an operand
cell. -/
def unionJiggleAttemptS (K : Kernel) (s : Store) (operands : List Ref)
    (offset : ℚ) (vec : Vec3) : Store × Option Outcome :=
  match operands.getLast? with
  | none => (s, none)
  | some lastRef =>
    let dup := allocRef s (readRef s lastRef)
    let s2 := writeRef dup.1 dup.2
      (K.translate (readRef dup.1 dup.2) (vsmul offset vec))
    let jiggled := operands.dropLast.map (readRef s2) ++ [readRef s2 dup.2]
    match attempt_multi_union K jiggled (1/100) with
    | none => (s2, none)
    | some r0 =>
      let r := K.translate r0 (vsmul (-offset) vec)
      let v := validate_union_result_multi K r (operands.map (readRef s2)) 15 (1/1000)
      if v.1 then (s2, some (r, true, Method.jiggled offset)) else (s2, none)

/-- Difference strategy 4's jiggle trial over the store (BrepDifference.py
lines 288-307): `jiggled_subtrahend = subtrahend.Duplicate()` is a fresh
cell; the translation mutates only that duplicate. -/
def diffJiggleAttemptS (K : Kernel) (s : Store) (minuendRef subtrahendRef : Ref)
    (intersection_vol base_tolerance offset : ℚ) (vec : Vec3) :
    Store × Option Outcome :=
  let dup := allocRef s (readRef s subtrahendRef)
  let s2 := writeRef dup.1 dup.2
    (K.translate (readRef dup.1 dup.2) (vsmul offset vec))
  match attempt_boolean_difference K (readRef s2 minuendRef) (readRef s2 dup.2)
      base_tolerance with
  | none => (s2, none)
  | some r =>
    let v := validate_difference_result K r (readRef s2 minuendRef)
      (some intersection_vol) 15
    if v.1 then (s2, some (r, true, Method.jiggled offset)) else (s2, none)

/-- Difference strategy 5's repair over the store (BrepDifference.py lines
315-325): both operands are duplicated before `SplitKinkyFaces`/`Compact`
mutate them. -/
def diffRepairS (K : Kernel) (s : Store) (minuendRef subtrahendRef : Ref)
    (base_tolerance : ℚ) : Store × Option Brep :=
  let dupM := allocRef s (readRef s minuendRef)
  let dupS := allocRef dupM.1 (readRef dupM.1 subtrahendRef)
  let s3 := writeRef dupS.1 dupM.2 (K.compact (K.splitKinky (readRef dupS.1 dupM.2)))
  let s4 := writeRef s3 dupS.2 (K.compact (K.splitKinky (readRef s3 dupS.2)))
  (s4, attempt_boolean_difference K (readRef s4 dupM.2) (readRef s4 dupS.2)
    (base_tolerance * 10))

/-- `cmpJiggleUnion.randomNudge` (cmpJiggleUnion.py lines 45-50): the brep
passed in — a caller's original — is transformed in place. -/
def randomNudgeS (K : Kernel) (s : Store) (r : Ref) (jiggle : Vec3) : Store :=
  writeRef s r (K.translate (readRef s r) jiggle)

/-- `cmpJiggleUnion.isAcceptableResult` (lines 71-87): exactly one
resulting brep that contains every collected interior test point. -/
def isAcceptableResult (K : Kernel) (tol : ℚ) (unioned : Option (List Brep))
    (pts : List Point) : Bool :=
  match unioned with
  | none => false
  | some [b] => pts.all (fun p => K.isPointInside b p tol false)
  | some _ => false

/-- The test-point collection of `doUnionRun` (lines 94-96):
`generatePointsInsideBrep`'s rejection sampling is abstracted to the
kernel call `samplePointsInside` returning the points found (`none` =
the sampler's exception). -/
def collectTestPts (K : Kernel) (s : Store) : List Ref → Option (List Point)
  | [] => some []
  | r :: rs =>
    match K.samplePointsInside (readRef s r) 400 with
    | none => none
    | some pts =>
      match collectTestPts K s rs with
      | none => none
      | some rest => some (pts ++ rest)

/-- The inner nudge loop of `doUnionRun` (lines 109-119): nudge each input
brep in place (random jiggle supplied as an external stream indexed by the
attempt counter), re-union all inputs, stop at the first acceptable
result.  Returns (store, counter, last union result, found flag). -/
def jiggleInner (K : Kernel) (rng : Nat → Vec3) (tol : ℚ) (anm : Bool)
    (testPts : List Point) (allRefs : List Ref) :
    List Ref → Store → Nat → Option (List Brep) →
    Store × Nat × Option (List Brep) × Bool
  | [], s, k, u => (s, k, u, false)
  | r :: rs, s, k, u =>
    let k2 := k + 1
    let s2 := randomNudgeS K s r (rng k2)
    let u2 := K.booleanUnion3 (allRefs.map (readRef s2)) tol anm
    if isAcceptableResult K tol u2 testPts then (s2, k2, u2, true)
    else jiggleInner K rng tol anm testPts allRefs rs s2 k2 u2

/-- The outer desperation loop of `doUnionRun` (lines 107-122). -/
def jiggleOuter (K : Kernel) (rng : Nat → Vec3) (tol : ℚ) (anm : Bool)
    (testPts : List Point) (allRefs : List Ref) :
    Nat → Store → Nat → Option (List Brep) →
    Store × Nat × Option (List Brep) × Bool
  | 0, s, k, u => (s, k, u, false)
  | d + 1, s, k, u =>
    match jiggleInner K rng tol anm testPts allRefs allRefs s k u with
    | (s2, k2, u2, true) => (s2, k2, u2, true)
    | (s2, k2, u2, false) => jiggleOuter K rng tol anm testPts allRefs d s2 k2 u2

/-- `cmpJiggleUnion.doUnionRun` (lines 89-144) over the store: collect
interior test points, attempt the union, nudge the caller's breps in place
until a result is acceptable or attempts are exhausted, then extract the
first resulting brep, the jiggle count, its volume and the test points.
`none` in the second component models a raised exception; either way the
first component is the store the caller is left with. -/
def doUnionRunS (K : Kernel) (rng : Nat → Vec3) (maxAttempts : Nat)
    (tol : ℚ) (anm : Bool) (s : Store) (brepRefs : List Ref) :
    Store × Option (Brep × Nat × ℚ × List Point) :=
  match collectTestPts K s brepRefs with
  | none => (s, none)
  | some testPts =>
    let u0 := K.booleanUnion3 (brepRefs.map (readRef s)) tol anm
    let afterLoop :=
      if isAcceptableResult K tol u0 testPts then (s, 0, u0, true)
      else jiggleOuter K rng tol anm testPts brepRefs maxAttempts s 0 u0
    match afterLoop with
    | (s2, k, u, _) =>
      match u with
      | none => (s2, none)
      | some [] => (s2, none)
      | some (b :: _) =>
        match K.volumeMass b with
        | none => (s2, none)
        | some vol => (s2, some (b, k, vol, testPts))

/-!
Concrete kernels and breps used by witnesses and counterexamples.
-/

/-- A clean solid: valid, solid, manifold, no naked edges, no faces to
sample, at the origin. -/
def cleanBrep : Brep :=
  { isValid := true, isSolid := true, isManifold := true,
    nakedEdges := 0, faceCount := 0, pos := vzero }

/-- A kernel on which every fallible operation fails, repairs are the
identity and translation moves the coarse position. -/
def inertKernel : Kernel where
  getVolume := fun _ => none
  booleanIntersection := fun _ _ _ => none
  booleanIntersectionList := fun _ _ _ => none
  booleanDifference := fun _ _ _ => none
  booleanDifferenceList := fun _ _ _ => none
  booleanUnion := fun _ _ => none
  booleanUnion3 := fun _ _ _ => none
  joinBreps := fun _ _ => none
  meshUnion := fun _ _ => none
  surfaceSurface := fun _ _ _ _ => none
  repair := fun b _ => b
  splitKinky := fun b => b
  compact := fun b => b
  translate := fun b v => { b with pos := vadd b.pos v }
  isPointInside := fun _ _ _ _ => false
  samplePointsInside := fun _ _ => none
  volumeMass := fun _ => none
  docTolerance := 1/1000

/-- An invalid solid (fails the kernel validity check). -/
def invalidBrep : Brep := { cleanBrep with isValid := false }

/-- The kernel for the C3 scenario: the direct union result is perfect
except that it conserves only half the expected volume; every other
strategy's kernel call fails. -/
def KC3 : Kernel :=
  { inertKernel with
    getVolume := fun _ => some 10
    booleanUnion := fun _ t => if t = 1/1000 then some [cleanBrep] else none }

/-- The kernel for the C7 union counterexample: every union strategy's
kernel call fails, and volumes make the sequential fallback's partial
result a major volume violation. -/
def KC7u : Kernel := { inertKernel with getVolume := fun _ => some 10 }

/-- A second all-failing union kernel (distinct volumes), for the amended
statement. -/
def KC7u2 : Kernel := { inertKernel with getVolume := fun _ => some 8 }

/-- The kernel for the C7 difference witness: the operands intersect (unit
volume) but both difference APIs always fail. -/
def KC7d : Kernel :=
  { inertKernel with
    getVolume := fun _ => some 1
    booleanIntersection := fun _ _ _ => some [cleanBrep] }

/-- A union result that kept two naked edges, used by the C2
counterexample. -/
def nakedBrep : Brep := { cleanBrep with nakedEdges := 2 }

/-- The kernel for the C2 counterexample: the all-at-once union fails at
the base tolerance, while any union at tolerance 0.01 yields a valid,
solid, manifold result that still has two naked edges. -/
def KC2 : Kernel :=
  { inertKernel with
    booleanUnion := fun _ t => if t = 1/100 then some [nakedBrep] else none }

/-- A solid but non-manifold candidate, used by the C2 witness. -/
def nmBrep : Brep := { cleanBrep with isManifold := false }

/-- The kernel for the C2 difference witness: the operands intersect with
unit volume and every difference attempt yields the same solid,
non-manifold candidate. -/
def KC2d : Kernel :=
  { inertKernel with
    getVolume := fun _ => some 1
    booleanIntersection := fun _ _ _ => some [cleanBrep]
    booleanDifference := fun _ _ _ => some [nmBrep] }

/-- The kernel for the C5 union witness: any union at tolerance 0.01
yields a clean solid; its translation happens to leave the observable
position unchanged, which keeps the witness evaluation finite without
weakening the theorem being instantiated. -/
def KC5u : Kernel :=
  { inertKernel with
    booleanUnion := fun _ t => if t = 1/100 then some [cleanBrep] else none
    translate := fun b _ => b }

/-- The kernel for the C5 difference witness: every difference yields a
clean solid. -/
def KC5d : Kernel :=
  { inertKernel with booleanDifference := fun _ _ _ => some [cleanBrep] }

/-- The outcome the C5 union witness run produces. -/
def C5uOut : Outcome := (cleanBrep, true, Method.jiggled (1/100))

/-- The outcome the C5 difference witness run produces. -/
def C5dOut : Outcome := (cleanBrep, true, Method.jiggled (1/1000))

/-- The nudge stream of the C9 counterexample: every nudge is a unit
translation along X. -/
def C9rng : Nat → Vec3 := fun _ => (1, 0, 0)

/-- The kernel of the C9 counterexample: the interior-point sampler
returns the 400 requested points, every union call returns a single body
that fails the interior-point check, and volume computation succeeds. -/
def KC9 : Kernel :=
  { inertKernel with
    samplePointsInside := fun _ _ => some (List.replicate 400 vzero)
    booleanUnion3 := fun _ _ _ => some [cleanBrep]
    volumeMass := fun _ => some 1 }

/-- The caller's brep after the in-place nudge. -/
def C9movedBrep : Brep := { cleanBrep with pos := (1, 0, 0) }

/-- First result piece of the C10 scenario (volume 5). -/
def pieceA : Brep := { cleanBrep with pos := (1, 0, 0) }

/-- Second result piece of the C10 scenario (volume 3). -/
def pieceB : Brep := { cleanBrep with pos := (2, 0, 0) }

/-- The single body joining would produce in the C10 scenario. -/
def joinedPiece : Brep := { cleanBrep with pos := (3, 0, 0) }

/-- The kernel of the C10 counterexample: the list-API difference returns
two pieces which the join operation would merge into exactly one body. -/
def KC10 : Kernel :=
  { inertKernel with
    getVolume := fun b =>
      if b = pieceA then some 5 else if b = pieceB then some 3 else some 1
    booleanDifferenceList := fun _ _ _ => some [pieceA, pieceB]
    joinBreps := fun l _ => if l = [pieceA, pieceB] then some [joinedPiece] else none }

/-- Kernel where the pair-API difference returns two pieces and joining
succeeds. -/
def KC10b : Kernel :=
  { KC10 with booleanDifference := fun _ _ _ => some [pieceA, pieceB] }

/-- Kernel where the pair-API difference returns two pieces and joining
fails. -/
def KC10c : Kernel :=
  { KC10b with joinBreps := fun _ _ => none }

/-!
General lemmas about the embedded validators, loops and the store.
-/

theorem validate_union_fst (K : Kernel) (r : Brep) (inputs : List Brep)
    (pct bt : ℚ) :
    (validate_union_result_multi K r inputs pct bt).1
      = (validate_union_result_multi K r inputs pct bt).2.isEmpty := rfl

theorem validate_diff_fst (K : Kernel) (r m : Brep) (iv : Option ℚ) (pct : ℚ) :
    (validate_difference_result K r m iv pct).1
      = (validate_difference_result K r m iv pct).2.isEmpty := rfl

/-- An empty union-validator issue list certifies the three basic flags. -/
theorem validate_union_empty_flags (K : Kernel) (r : Brep) (inputs : List Brep)
    (pct bt : ℚ)
    (h : (validate_union_result_multi K r inputs pct bt).2 = []) :
    r.isValid = true ∧ r.isSolid = true ∧ r.isManifold = true := by
  unfold validate_union_result_multi at h
  simp only at h
  refine ⟨?_, ?_, ?_⟩
  · by_contra hv
    rw [Bool.not_eq_true] at hv
    simp [hv] at h
  · by_contra hv
    rw [Bool.not_eq_true] at hv
    simp [hv] at h
  · by_contra hv
    rw [Bool.not_eq_true] at hv
    simp [hv] at h

/-- An empty difference-validator issue list certifies the three basic
flags. -/
theorem validate_diff_empty_flags (K : Kernel) (r m : Brep)
    (iv : Option ℚ) (pct : ℚ)
    (h : (validate_difference_result K r m iv pct).2 = []) :
    r.isValid = true ∧ r.isSolid = true ∧ r.isManifold = true := by
  unfold validate_difference_result at h
  simp only at h
  refine ⟨?_, ?_, ?_⟩
  · by_contra hv
    rw [Bool.not_eq_true] at hv
    simp [hv] at h
  · by_contra hv
    rw [Bool.not_eq_true] at hv
    simp [hv] at h
  · by_contra hv
    rw [Bool.not_eq_true] at hv
    simp [hv] at h

/-- The counter-guarded fold of the self-intersection loop counts the
offending pairs among the first `m - c` pairs that pass the `i < j`
filter. -/
theorem selfIntersectFold (off : Nat × Nat → Bool) (m : Nat) :
    ∀ (l : List (Nat × Nat)) (c n : Nat),
    (l.foldl (fun acc p =>
        if p.1 < p.2 ∧ acc.1 < m then
          (acc.1 + 1, acc.2 + (if off p then 1 else 0))
        else acc) (c, n)).2
      = n + (((l.filter (fun p => p.1 < p.2)).take (m - c)).countP off) := by
  intro l
  induction l with
  | nil => intro c n; simp
  | cons p l ih =>
    intro c n
    by_cases hp : p.1 < p.2
    · by_cases hc : c < m
      · rw [List.foldl_cons, if_pos ⟨hp, hc⟩, ih]
        rw [List.filter_cons_of_pos (by simpa using hp)]
        have hmc : m - c = (m - (c + 1)) + 1 := by omega
        rw [hmc, List.take_succ_cons, List.countP_cons]
        by_cases ho : off p <;> simp [ho] <;> omega
      · have h0 : m - c = 0 := by omega
        rw [List.foldl_cons, if_neg (by
          intro hand
          exact hc hand.2), ih]
        rw [List.filter_cons_of_pos (by simpa using hp)]
        simp [h0]
    · rw [List.foldl_cons, if_neg (by
        intro hand
        exact hp hand.1), ih]
      rw [List.filter_cons_of_neg (by simpa using hp)]

/-- The embedded self-intersection loop equals the declarative count:
offending pairs among the first `min(50, C(faceCount, 2))` pairs with
`i < j` in loop order. -/
theorem selfIntersectCount_eq (K : Kernel) (b : Brep) :
    selfIntersectCount K b
      = ((indexPairs b.faceCount).take (maxChecksFor b.faceCount)).countP
          (fun p => pairOffends K b p.1 p.2) := by
  unfold selfIntersectCount selfIntersectScan indexPairs
  rw [selfIntersectFold (fun p => pairOffends K b p.1 p.2) (maxChecksFor b.faceCount)]
  simp

/-- The self-intersection loop never examines more than 50 face pairs. -/
theorem selfIntersect_bounded (n : Nat) :
    ((indexPairs n).take (maxChecksFor n)).length ≤ 50 := by
  calc ((indexPairs n).take (maxChecksFor n)).length
      ≤ maxChecksFor n := by
        rw [List.length_take]
        exact min_le_left _ _
    _ ≤ 50 := min_le_left _ _

/-- Reading below the old length is unchanged by an append. -/
theorem readRef_append (s : Store) (b : Brep) (r : Ref) (h : r < s.length) :
    readRef (s ++ [b]) r = readRef s r := by
  unfold readRef
  rw [List.getD_eq_getElem?_getD, List.getD_eq_getElem?_getD,
    List.getElem?_append_left h]

/-- Reading a cell other than the written one is unchanged. -/
theorem readRef_write_ne (s : Store) (w r : Ref) (b : Brep) (h : r ≠ w) :
    readRef (writeRef s w b) r = readRef s r := by
  unfold readRef writeRef
  rw [List.getD_eq_getElem?_getD, List.getD_eq_getElem?_getD,
    List.getElem?_set_ne (Ne.symm h)]

/-!
Shape lemmas: which labels each strategy can produce, and what an accepted
outcome certifies.
-/

theorem unionStrategy2_shape (K : Kernel) (bs : List Brep) (bt : ℚ) :
    ∀ (ts : List ℚ) (o : Outcome), unionStrategy2 K bs bt ts = some o →
    ∃ r t, o = (r, true, Method.multiUnion t)
      ∧ (validate_union_result_multi K r bs 10 (1/1000)).2 = [] := by
  intro ts
  induction ts with
  | nil =>
    intro o h
    simp [unionStrategy2] at h
  | cons t ts ih =>
    intro o h
    simp only [unionStrategy2] at h
    split at h
    · exact ih o h
    · split at h
      · exact ih o h
      · rename_i r ha
        split at h
        · rename_i hv
          refine ⟨r, t, (Option.some_injective _ h).symm, ?_⟩
          rw [validate_union_fst, List.isEmpty_iff] at hv
          exact hv
        · exact ih o h

theorem unionJiggleAttempt_shape (K : Kernel) (bs : List Brep) (off : ℚ)
    (vec : Vec3) (o : Outcome) (h : unionJiggleAttempt K bs off vec = some o) :
    ∃ lastB raw, bs.getLast? = some lastB
      ∧ attempt_multi_union K (bs.dropLast ++ [K.translate lastB (vsmul off vec)])
          (1/100) = some raw
      ∧ o = (K.translate raw (vsmul (-off) vec), true, Method.jiggled off)
      ∧ (validate_union_result_multi K (K.translate raw (vsmul (-off) vec)) bs
          15 (1/1000)).2 = [] := by
  unfold unionJiggleAttempt at h
  split at h
  · exact absurd h (by simp)
  · rename_i lastB hlast
    dsimp only at h
    split at h
    · exact absurd h (by simp)
    · rename_i raw hraw
      split at h
      · rename_i hv
        rw [validate_union_fst, List.isEmpty_iff] at hv
        exact ⟨lastB, raw, hlast, hraw, (Option.some_injective _ h).symm, hv⟩
      · exact absurd h (by simp)

theorem unionStrategy3_shape (K : Kernel) (bs : List Brep) (o : Outcome)
    (h : unionStrategy3 K bs = some o) :
    ∃ off vec lastB raw, off ∈ unionJiggleOffsets ∧ vec ∈ unionJiggleVectors
      ∧ bs.getLast? = some lastB
      ∧ attempt_multi_union K (bs.dropLast ++ [K.translate lastB (vsmul off vec)])
          (1/100) = some raw
      ∧ o = (K.translate raw (vsmul (-off) vec), true, Method.jiggled off)
      ∧ (validate_union_result_multi K (K.translate raw (vsmul (-off) vec)) bs
          15 (1/1000)).2 = [] := by
  unfold unionStrategy3 at h
  obtain ⟨p, hp, hatt⟩ := List.exists_of_findSome?_eq_some h
  rw [List.mem_flatMap] at hp
  obtain ⟨off, hoff, hpin⟩ := hp
  rw [List.mem_map] at hpin
  obtain ⟨vec, hvec, hpv⟩ := hpin
  obtain ⟨lastB, raw, h1, h2, h3, h4⟩ :=
    unionJiggleAttempt_shape K bs p.1 p.2 o hatt
  subst hpv
  exact ⟨off, vec, lastB, raw, hoff, hvec, h1, h2, h3, h4⟩

theorem unionStrategy4_shape (K : Kernel) (bs : List Brep) (bt : ℚ)
    (o : Outcome) (h : unionStrategy4 K bs bt = some o) :
    ∃ r, o = (r, true, Method.repaired)
      ∧ (validate_union_result_multi K r bs 15 (1/1000)).2 = [] := by
  unfold unionStrategy4 at h
  dsimp only at h
  split at h
  · exact absurd h (by simp)
  · rename_i r hr
    split at h
    · rename_i hv
      rw [validate_union_fst, List.isEmpty_iff] at hv
      exact ⟨r, (Option.some_injective _ h).symm, hv⟩
    · exact absurd h (by simp)

theorem unionStrategy5_shape (K : Kernel) (bs : List Brep) (bt : ℚ)
    (o : Outcome) (h : unionStrategy5 K bs bt = some o) :
    ∃ r name, o = (r, true, Method.ordered name)
      ∧ (validate_union_result_multi K r bs 10 (1/1000)).2 = [] := by
  unfold unionStrategy5 at h
  obtain ⟨name, _, hname⟩ := List.exists_of_findSome?_eq_some h
  dsimp only at hname
  split at hname
  · exact absurd hname (by simp)
  · rename_i r hr
    split at hname
    · rename_i hv
      rw [validate_union_fst, List.isEmpty_iff] at hv
      exact ⟨r, name, (Option.some_injective _ hname).symm, hv⟩
    · exact absurd hname (by simp)

theorem unionStrategy6_shape (K : Kernel) (bs : List Brep) (bt : ℚ)
    (o : Outcome) (h : unionStrategy6 K bs bt = some o) :
    ∃ r, o = (r, true, Method.sequential)
      ∧ r.isValid = true ∧ r.isSolid = true
      ∧ (validate_union_result_multi K r bs 10 (1/1000)).2.length ≤ 1 := by
  unfold unionStrategy6 at h
  split at h
  · exact absurd h (by simp)
  · rename_i b0 rest
    dsimp only at h
    split at h
    · exact absurd h (by simp)
    · split at h
      · rename_i hv
        rw [validate_union_fst, List.isEmpty_iff] at hv
        have flags := validate_union_empty_flags K _ (b0 :: rest) 10 (1/1000) hv
        refine ⟨_, (Option.some_injective _ h).symm, flags.1, flags.2.1, ?_⟩
        rw [hv]
        simp
      · split at h
        · rename_i hg
          exact ⟨_, (Option.some_injective _ h).symm, hg.1, hg.2.1, hg.2.2⟩
        · exact absurd h (by simp)

theorem unionStrategy7_shape (K : Kernel) (bs : List Brep) (o : Outcome)
    (h : unionStrategy7 K bs = some o) :
    ∃ r, o = (r, true, Method.mesh)
      ∧ (validate_union_result_multi K r bs 25 (1/1000)).2 = [] := by
  unfold unionStrategy7 at h
  split at h
  · rename_i a b
    dsimp only at h
    split at h
    · exact absurd h (by simp)
    · rename_i r hr
      split at h
      · rename_i hv
        rw [validate_union_fst, List.isEmpty_iff] at hv
        exact ⟨r, (Option.some_injective _ h).symm, hv⟩
      · exact absurd h (by simp)
  · exact absurd h (by simp)

theorem diffScore_some (K : Kernel) (m : Brep) (iv pct : ℚ) (label : Method)
    (best : Option (Brep × List Issue)) (att : Option Brep) (o : Outcome)
    (best' : Option (Brep × List Issue))
    (h : diffScore K m iv pct label best att = (some o, best')) :
    att = some o.1 ∧ o.2.1 = true ∧ o.2.2 = label
      ∧ (validate_difference_result K o.1 m (some iv) pct).2 = []
      ∧ best' = best := by
  unfold diffScore at h
  split at h
  · simp at h
  · rename_i r
    dsimp only at h
    split at h
    · rename_i hv
      rw [Prod.mk.injEq] at h
      obtain ⟨h1, h2⟩ := h
      injection h1 with h1
      subst h1
      rw [validate_diff_fst, List.isEmpty_iff] at hv
      exact ⟨rfl, rfl, rfl, hv, h2.symm⟩
    · rw [Prod.mk.injEq] at h
      exact absurd h.1 (by simp)

theorem diffScore_none (K : Kernel) (m : Brep) (iv pct : ℚ) (label : Method)
    (best : Option (Brep × List Issue)) :
    diffScore K m iv pct label best none = (none, best) := rfl

theorem diffEscalation_some (K : Kernel) (m s : Brep) (iv bt : ℚ) :
    ∀ (ts : List ℚ) (best : Option (Brep × List Issue)) (o : Outcome)
      (best' : Option (Brep × List Issue)),
    diffEscalation K m s iv bt ts best = (some o, best') →
    ∃ t, t ∈ ts ∧ o.2.2 = Method.difference t ∧ o.2.1 = true
      ∧ attempt_boolean_difference K m s t = some o.1
      ∧ (validate_difference_result K o.1 m (some iv) 15).2 = [] := by
  intro ts
  induction ts with
  | nil =>
    intro best o best' h
    simp [diffEscalation] at h
  | cons t ts ih =>
    intro best o best' h
    rw [diffEscalation] at h
    split at h
    · obtain ⟨t', ht', rest⟩ := ih best o best' h
      exact ⟨t', List.mem_cons_of_mem _ ht', rest⟩
    · split at h
      · rename_i o2 b2 hscore
        rw [Prod.mk.injEq] at h
        obtain ⟨h1, _⟩ := h
        injection h1 with h1
        subst h1
        obtain ⟨hatt, hsucc, hlab, hval, _⟩ :=
          diffScore_some K m iv 15 (Method.difference t) best _ o2 b2 hscore
        exact ⟨t, List.mem_cons_self _ _, hlab, hsucc, hatt, hval⟩
      · rename_i b2 hscore
        obtain ⟨t', ht', rest⟩ := ih b2 o best' h
        exact ⟨t', List.mem_cons_of_mem _ ht', rest⟩

theorem diffJiggleLoop_some (K : Kernel) (m s : Brep) (iv bt : ℚ) :
    ∀ (ps : List (ℚ × Vec3)) (best : Option (Brep × List Issue)) (o : Outcome)
      (best' : Option (Brep × List Issue)),
    diffJiggleLoop K m s iv bt ps best = (some o, best') →
    ∃ p, p ∈ ps ∧ o.2.2 = Method.jiggled p.1 ∧ o.2.1 = true
      ∧ attempt_boolean_difference K m (K.translate s (vsmul p.1 p.2)) bt
          = some o.1
      ∧ (validate_difference_result K o.1 m (some iv) 15).2 = [] := by
  intro ps
  induction ps with
  | nil =>
    intro best o best' h
    simp [diffJiggleLoop] at h
  | cons p ps ih =>
    intro best o best' h
    rw [diffJiggleLoop] at h
    split at h
    · rename_i o2 b2 hscore
      rw [Prod.mk.injEq] at h
      obtain ⟨h1, _⟩ := h
      injection h1 with h1
      subst h1
      obtain ⟨hatt, hsucc, hlab, hval, _⟩ :=
        diffScore_some K m iv 15 (Method.jiggled p.1) best _ o2 b2 hscore
      exact ⟨p, List.mem_cons_self _ _, hlab, hsucc, hatt, hval⟩
    · rename_i b2 hscore
      obtain ⟨p', hp', rest⟩ := ih b2 o best' h
      exact ⟨p', List.mem_cons_of_mem _ hp', rest⟩

theorem diffRepair_some (K : Kernel) (m s : Brep) (iv bt : ℚ)
    (best : Option (Brep × List Issue)) (o : Outcome)
    (best' : Option (Brep × List Issue))
    (h : diffRepair K m s iv bt best = (some o, best')) :
    o.2.2 = Method.repaired ∧ o.2.1 = true
      ∧ attempt_boolean_difference K (K.compact (K.splitKinky m))
          (K.compact (K.splitKinky s)) (bt * 10) = some o.1
      ∧ (validate_difference_result K o.1 m (some iv) 20).2 = [] := by
  unfold diffRepair at h
  obtain ⟨hatt, hsucc, hlab, hval, _⟩ :=
    diffScore_some K m iv 20 Method.repaired best _ o best' h
  exact ⟨hlab, hsucc, hatt, hval⟩

/-- Every accepted outcome of the five difference strategies is marked
successful, carries a non-`Imperfect` label, and was cleanly validated at
one of the strategy tolerance percentages. -/
theorem diffStrategies_some (K : Kernel) (m s : Brep) (iv bt : ℚ)
    (o : Outcome) (best' : Option (Brep × List Issue))
    (h : diffStrategies K m s iv bt = (some o, best')) :
    o.2.1 = true
    ∧ (∀ iss, o.2.2 ≠ Method.imperfect iss)
    ∧ ∃ pct, (pct = 10 ∨ pct = 15 ∨ pct = 20)
        ∧ (validate_difference_result K o.1 m (some iv) pct).2 = [] := by
  unfold diffStrategies at h
  split at h
  · rename_i o1 b1 hs1
    rw [Prod.mk.injEq] at h
    obtain ⟨h1, _⟩ := h
    injection h1 with h1
    subst h1
    obtain ⟨_, hsucc, hlab, hval, _⟩ := diffScore_some _ _ _ _ _ _ _ _ _ hs1
    exact ⟨hsucc, by intro iss; rw [hlab]; simp, 10, Or.inl rfl, hval⟩
  · rename_i b1 hs1
    split at h
    · rename_i o2 b2 hs2
      rw [Prod.mk.injEq] at h
      obtain ⟨h1, _⟩ := h
      injection h1 with h1
      subst h1
      obtain ⟨_, hsucc, hlab, hval, _⟩ := diffScore_some _ _ _ _ _ _ _ _ _ hs2
      exact ⟨hsucc, by intro iss; rw [hlab]; simp, 10, Or.inl rfl, hval⟩
    · rename_i b2 hs2
      split at h
      · rename_i o3 b3 hs3
        rw [Prod.mk.injEq] at h
        obtain ⟨h1, _⟩ := h
        injection h1 with h1
        subst h1
        obtain ⟨_, _, hlab, hsucc, _, hval⟩ :=
          diffEscalation_some K m s iv bt _ b2 o3 b3 hs3
        exact ⟨hsucc, by intro iss; rw [hlab]; simp, 15, Or.inr (Or.inl rfl), hval⟩
      · rename_i b3 hs3
        split at h
        · rename_i o4 b4 hs4
          rw [Prod.mk.injEq] at h
          obtain ⟨h1, _⟩ := h
          injection h1 with h1
          subst h1
          obtain ⟨_, _, hlab, hsucc, _, hval⟩ :=
            diffJiggleLoop_some K m s iv bt _ b3 o4 b4 hs4
          exact ⟨hsucc, by intro iss; rw [hlab]; simp, 15, Or.inr (Or.inl rfl), hval⟩
        · rename_i b4 hs4
          obtain ⟨hlab, hsucc, _, hval⟩ := diffRepair_some K m s iv bt b4 o best' h
          exact ⟨hsucc, by intro iss; rw [hlab]; simp, 20, Or.inr (Or.inr rfl), hval⟩

theorem attempt_boolean_difference_none (K : Kernel)
    (hd : ∀ a b t, K.booleanDifference a b t = none) (a b : Brep) (t : ℚ) :
    attempt_boolean_difference K a b t = none := by
  unfold attempt_boolean_difference
  rw [hd]

theorem attempt_difference_with_lists_none (K : Kernel)
    (hdl : ∀ a b t, K.booleanDifferenceList a b t = none) (a b : Brep) (t : ℚ) :
    attempt_difference_with_lists K a b t = none := by
  unfold attempt_difference_with_lists
  rw [hdl]

theorem diffEscalation_all_fail (K : Kernel) (m s : Brep) (iv bt : ℚ)
    (hatt : ∀ a b t, attempt_boolean_difference K a b t = none) :
    ∀ (ts : List ℚ) (best : Option (Brep × List Issue)),
    diffEscalation K m s iv bt ts best = (none, best) := by
  intro ts
  induction ts with
  | nil => intro best; rfl
  | cons t ts ih =>
    intro best
    rw [diffEscalation]
    by_cases hle : t ≤ bt
    · rw [if_pos hle]
      exact ih best
    · rw [if_neg hle, hatt, diffScore_none]
      exact ih best

theorem diffJiggleLoop_all_fail (K : Kernel) (m s : Brep) (iv bt : ℚ)
    (hatt : ∀ a b t, attempt_boolean_difference K a b t = none) :
    ∀ (ps : List (ℚ × Vec3)) (best : Option (Brep × List Issue)),
    diffJiggleLoop K m s iv bt ps best = (none, best) := by
  intro ps
  induction ps with
  | nil => intro best; rfl
  | cons p ps ih =>
    intro best
    rw [diffJiggleLoop, hatt, diffScore_none]
    exact ih best

theorem diffRepair_all_fail (K : Kernel) (m s : Brep) (iv bt : ℚ)
    (hatt : ∀ a b t, attempt_boolean_difference K a b t = none)
    (best : Option (Brep × List Issue)) :
    diffRepair K m s iv bt best = (none, best) := by
  unfold diffRepair
  simp only [hatt, diffScore_none]

/-- When both kernel difference APIs always fail, every strategy fails and
no best-imperfect candidate is ever recorded. -/
theorem diffStrategies_all_fail (K : Kernel) (m s : Brep) (iv bt : ℚ)
    (hd : ∀ a b t, K.booleanDifference a b t = none)
    (hdl : ∀ a b t, K.booleanDifferenceList a b t = none) :
    diffStrategies K m s iv bt = (none, none) := by
  have hatt : ∀ a b t, attempt_boolean_difference K a b t = none :=
    fun a b t => attempt_boolean_difference_none K hd a b t
  have hattl : ∀ a b t, attempt_difference_with_lists K a b t = none :=
    fun a b t => attempt_difference_with_lists_none K hdl a b t
  unfold diffStrategies
  simp only [hatt, hattl, diffScore_none,
    diffEscalation_all_fail K m s iv bt hatt,
    diffJiggleLoop_all_fail K m s iv bt hatt,
    diffRepair_all_fail K m s iv bt hatt]

/-- Reading the written cell gives the written value. -/
theorem readRef_write_self (s : Store) (r : Ref) (b : Brep) (h : r < s.length) :
    readRef (writeRef s r b) r = b := by
  unfold readRef writeRef
  rw [List.getD_eq_getElem?_getD, List.getElem?_set_self h]
  rfl

/-- The store produced by `Duplicate` plus an in-place mutation of the
duplicate leaves every pre-existing cell unchanged. -/
theorem readRef_alloc_write (s : Store) (dup b : Brep) (r : Ref)
    (h : r < s.length) :
    readRef (writeRef (s ++ [dup]) s.length b) r = readRef s r := by
  rw [readRef_write_ne _ _ _ _ (Nat.ne_of_lt h), readRef_append _ _ _ h]

theorem writeRef_length (s : Store) (r : Ref) (b : Brep) :
    (writeRef s r b).length = s.length := by
  unfold writeRef
  simp

/-- A guarded strategy that fired must have fired on its own. -/
theorem ite_none_some {α : Type} (c : Prop) [Decidable c] (x : Option α)
    (o : α) (h : (if c then x else none) = some o) : x = some o := by
  split at h
  · exact h
  · simp at h

/-- `pyMaxByVol` returns a member of the piece list of maximal volume
key. -/
theorem pyMaxByVol_spec (K : Kernel) :
    ∀ (rest : List Brep) (b0 : Brep),
    pyMaxByVol K b0 rest ∈ b0 :: rest
      ∧ ∀ b ∈ b0 :: rest, volKey K b ≤ volKey K (pyMaxByVol K b0 rest) := by
  intro rest
  induction rest with
  | nil =>
    intro b0
    constructor
    · exact List.mem_singleton.mpr rfl
    · intro b hb
      rw [List.mem_singleton] at hb
      subst hb
      exact le_refl _
  | cons x rest ih =>
    intro b0
    have hstep : pyMaxByVol K b0 (x :: rest)
        = pyMaxByVol K (if volKey K x > volKey K b0 then x else b0) rest := rfl
    rw [hstep]
    by_cases hx : volKey K x > volKey K b0
    · rw [if_pos hx]
      obtain ⟨hmem, hmax⟩ := ih x
      constructor
      · exact List.mem_cons_of_mem _ hmem
      · intro b hb
        rcases List.mem_cons.mp hb with h1 | h1
        · rw [h1]
          exact le_trans (le_of_lt hx) (hmax x (List.mem_cons_self _ _))
        · exact hmax b h1
    · rw [if_neg hx]
      obtain ⟨hmem, hmax⟩ := ih b0
      constructor
      · rcases List.mem_cons.mp hmem with h1 | h1
        · rw [h1]
          exact List.mem_cons_self _ _
        · exact List.mem_cons_of_mem _ (List.mem_cons_of_mem _ h1)
      · intro b hb
        rcases List.mem_cons.mp hb with h1 | h1
        · rw [h1]
          exact hmax b0 (List.mem_cons_self _ _)
        · rcases List.mem_cons.mp h1 with h2 | h2
          · rw [h2]
            exact le_trans (le_of_not_lt hx) (hmax b0 (List.mem_cons_self _ _))
          · exact hmax b (List.mem_cons_of_mem _ h2)

/-- The union jiggle trial mutates only the freshly allocated duplicate:
every pre-existing cell (in particular every caller operand) is
unchanged. -/
theorem unionJiggleAttemptS_frame (K : Kernel) (s : Store)
    (operands : List Ref) (off : ℚ) (vec : Vec3) (r : Ref)
    (h : r < s.length) :
    readRef (unionJiggleAttemptS K s operands off vec).1 r = readRef s r := by
  unfold unionJiggleAttemptS
  cases hl : operands.getLast? with
  | none => rfl
  | some lastRef =>
    dsimp only [allocRef]
    split
    · exact readRef_alloc_write s _ _ r h
    · split
      · exact readRef_alloc_write s _ _ r h
      · exact readRef_alloc_write s _ _ r h

/-- The difference jiggle trial mutates only the freshly allocated
duplicate of the subtrahend. -/
theorem diffJiggleAttemptS_frame (K : Kernel) (s : Store)
    (mr sr : Ref) (iv bt off : ℚ) (vec : Vec3) (r : Ref)
    (h : r < s.length) :
    readRef (diffJiggleAttemptS K s mr sr iv bt off vec).1 r = readRef s r := by
  unfold diffJiggleAttemptS
  dsimp only [allocRef]
  split
  · exact readRef_alloc_write s _ _ r h
  · split
    · exact readRef_alloc_write s _ _ r h
    · exact readRef_alloc_write s _ _ r h

/-- Appending one cell can only grow the store. -/
theorem le_length_append_one (s : Store) (b : Brep) :
    s.length ≤ (s ++ [b]).length := by
  rw [List.length_append]
  exact Nat.le_add_right _ _

/-- The difference repair strategy mutates only the two freshly allocated
duplicates. -/
theorem diffRepairS_frame (K : Kernel) (s : Store) (mr sr : Ref)
    (bt : ℚ) (r : Ref) (h : r < s.length) :
    readRef (diffRepairS K s mr sr bt).1 r = readRef s r := by
  unfold diffRepairS
  dsimp only [allocRef]
  rw [readRef_write_ne _ _ _ _
      (Nat.ne_of_lt (lt_of_lt_of_le h (le_length_append_one _ _))),
    readRef_write_ne _ _ _ _ (Nat.ne_of_lt h),
    readRef_append _ _ _ (lt_of_lt_of_le h (le_length_append_one _ _)),
    readRef_append _ _ _ h]

/-- `randomNudge` of cmpJiggleUnion writes the operand's own cell: the
caller's brep is translated in place. -/
theorem randomNudgeS_write (K : Kernel) (s : Store) (r : Ref) (v : Vec3)
    (h : r < s.length) :
    readRef (randomNudgeS K s r v) r = K.translate (readRef s r) v := by
  unfold randomNudgeS
  exact readRef_write_self s r _ h

/-- C1: for every difference request whose minuend and subtrahend
intersect with volume below the negligible 0.001 threshold, the engine
raises `NoIntersectionError` upfront — the call's result is that error, so
no combination strategy outcome is ever produced and the error propagates
to the caller (non-retryable). -/
theorem C1_noIntersection_upfront (K : Kernel) (m s : Brep) (bt : Option ℚ)
    (cv : Bool) (hm : m.isValid = true) (hs : s.isValid = true)
    (hiv : compute_intersection_volume K m s (resolveTol K bt) < 1/1000) :
    robust_brep_difference K (some m) (some s) bt cv
      = Except.error DiffError.noIntersection := by
  unfold robust_brep_difference
  simp only [hm, hs, Bool.not_true, Bool.false_eq_true, if_false]
  rw [if_pos hiv]

/-- C1 witness: the inert kernel computes intersection volume 0 for two
clean unit solids, and the difference call indeed returns the
`NoIntersectionError`. -/
theorem C1_witness :
    cleanBrep.isValid = true
    ∧ compute_intersection_volume inertKernel cleanBrep cleanBrep
        (resolveTol inertKernel none) < 1/1000
    ∧ robust_brep_difference inertKernel (some cleanBrep) (some cleanBrep)
        none true = Except.error DiffError.noIntersection :=
  ⟨by decide, by with_unfolding_all decide,
    C1_noIntersection_upfront inertKernel cleanBrep cleanBrep none true
      (by decide) (by decide) (by with_unfolding_all decide)⟩

/-- C6: for every single valid solid A, `combineUnion([A])` returns A
itself unchanged with `success=true` and the trivial single-operand
pass-through label (`"SingleBrep"`), before any tolerance resolution or
combination attempt. -/
theorem C6_single_operand_passthrough (K : Kernel) (A : Brep)
    (bt : Option ℚ) (cv : Bool) (h : A.isValid = true) :
    robust_brep_union K [some A] bt cv = (some A, true, Method.singleBrep) := by
  unfold robust_brep_union filterValidBreps
  simp [h]

/-- C6 witness: a concrete valid solid is passed through unchanged. -/
theorem C6_witness :
    cleanBrep.isValid = true
    ∧ robust_brep_union inertKernel [some cleanBrep] none true
        = (some cleanBrep, true, Method.singleBrep) :=
  ⟨by decide,
    C6_single_operand_passthrough inertKernel cleanBrep none true (by decide)⟩

/-- C4 counterexample: a union request containing an absent (`None`)
operand does not fail with any invalid-operand error — the engine silently
skips the absent operand and returns the remaining solid as a success. -/
theorem C4_counterexample :
    robust_brep_union inertKernel [none, some cleanBrep] none true
      = (some cleanBrep, true, Method.singleBrep) := by
  with_unfolding_all decide

/-- C4 amended: only the difference engine fails immediately with
`InvalidBrepError` on an absent or invalid operand; the union engine
instead filters absent/invalid operands out with a warning and returns the
failure triple `(None, False, "None")` only when no valid operand
remains. -/
theorem C4_amended :
    (∀ (K : Kernel) (s : Option Brep) (bt : Option ℚ) (cv : Bool),
      robust_brep_difference K none s bt cv
        = Except.error (DiffError.invalidBrep OperandFault.minuendNone))
    ∧ (∀ (K : Kernel) (m : Brep) (bt : Option ℚ) (cv : Bool),
      robust_brep_difference K (some m) none bt cv
        = Except.error (DiffError.invalidBrep OperandFault.subtrahendNone))
    ∧ (∀ (K : Kernel) (m s : Brep) (bt : Option ℚ) (cv : Bool),
      m.isValid = false →
      robust_brep_difference K (some m) (some s) bt cv
        = Except.error (DiffError.invalidBrep OperandFault.minuendInvalid))
    ∧ (∀ (K : Kernel) (m s : Brep) (bt : Option ℚ) (cv : Bool),
      m.isValid = true → s.isValid = false →
      robust_brep_difference K (some m) (some s) bt cv
        = Except.error (DiffError.invalidBrep OperandFault.subtrahendInvalid))
    ∧ (∀ (K : Kernel) (inputs : List (Option Brep)) (bt : Option ℚ) (cv : Bool),
      filterValidBreps inputs = [] →
      robust_brep_union K inputs bt cv = (none, false, Method.noneLabel)) := by
  refine ⟨fun K s bt cv => rfl, fun K m bt cv => rfl, ?_, ?_, ?_⟩
  · intro K m s bt cv hm
    unfold robust_brep_difference
    simp [hm]
  · intro K m s bt cv hm hs
    unfold robust_brep_difference
    simp [hm, hs]
  · intro K inputs bt cv hf
    unfold robust_brep_union
    rw [hf]

/-- C4 witness: the amended behaviour at concrete inputs — each
difference precondition failure and the all-invalid union case. -/
theorem C4_witness :
    robust_brep_difference inertKernel none (some cleanBrep) none true
        = Except.error (DiffError.invalidBrep OperandFault.minuendNone)
    ∧ robust_brep_difference inertKernel (some cleanBrep) none none true
        = Except.error (DiffError.invalidBrep OperandFault.subtrahendNone)
    ∧ robust_brep_difference inertKernel (some invalidBrep) (some cleanBrep)
        none true
        = Except.error (DiffError.invalidBrep OperandFault.minuendInvalid)
    ∧ robust_brep_difference inertKernel (some cleanBrep) (some invalidBrep)
        none true
        = Except.error (DiffError.invalidBrep OperandFault.subtrahendInvalid)
    ∧ robust_brep_union inertKernel [some invalidBrep, none] none true
        = (none, false, Method.noneLabel) :=
  ⟨C4_amended.1 inertKernel (some cleanBrep) none true,
    C4_amended.2.1 inertKernel cleanBrep none true,
    C4_amended.2.2.1 inertKernel invalidBrep cleanBrep none true (by decide),
    C4_amended.2.2.2.1 inertKernel cleanBrep invalidBrep none true
      (by decide) (by decide),
    C4_amended.2.2.2.2 inertKernel [some invalidBrep, none] none true
      (by decide)⟩

/-- C3: the `check_volumes` flag is dead — both engines never read it, so
acceptance always applies the volume-ratio check.  In particular a union
whose only defect is a 50 % volume loss is rejected (and ultimately fails)
even with `check_volumes := false`, where the documented behaviour would
accept it. -/
theorem C3_checkVolumes_has_no_effect :
    (∀ (K : Kernel) (inputs : List (Option Brep)) (bt : Option ℚ) (cv : Bool),
      robust_brep_union K inputs bt cv = robust_brep_union K inputs bt true)
    ∧ (∀ (K : Kernel) (m s : Option Brep) (bt : Option ℚ) (cv : Bool),
      robust_brep_difference K m s bt cv = robust_brep_difference K m s bt true)
    ∧ robust_brep_union KC3 [some cleanBrep, some cleanBrep] none false
        = (none, false, Method.noneLabel)
    ∧ (validate_union_result_multi KC3 cleanBrep [cleanBrep, cleanBrep]
        5 (1/1000)).2 = [Issue.volumeError 50] := by
  refine ⟨fun K i bt cv => rfl, fun K m s bt cv => rfl, ?_, ?_⟩
  · set_option maxRecDepth 100000 in with_unfolding_all decide
  · set_option maxRecDepth 100000 in with_unfolding_all decide

/-- C7 counterexample: when every union strategy fails with no usable
fallback, `robust_brep_union` does not raise any exhaustion error — it
returns the failure triple `(None, False, "None")` (its type has no error
channel at all). -/
theorem C7_counterexample :
    robust_brep_union KC7u [some cleanBrep, some cleanBrep] none true
      = (none, false, Method.noneLabel) := by
  set_option maxRecDepth 100000 in with_unfolding_all decide

/-- C7 amended: when every strategy fails and no solid fallback candidate
exists, the difference engine raises `BrepDifferenceError` carrying the
minuend / subtrahend / intersection volume summary; the union engine
instead returns the failure outcome `(None, False, "None")` without
raising. -/
theorem C7_amended :
    (∀ (K : Kernel) (m s : Brep) (bt : Option ℚ) (cv : Bool) (mv : ℚ),
      m.isValid = true → s.isValid = true →
      get_brep_volume K m = some mv →
      ¬ compute_intersection_volume K m s (resolveTol K bt) < 1/1000 →
      (∀ a b t, K.booleanDifference a b t = none) →
      (∀ a b t, K.booleanDifferenceList a b t = none) →
      robust_brep_difference K (some m) (some s) bt cv
        = Except.error (DiffError.exhausted mv ((get_brep_volume K s).getD 0)
            (compute_intersection_volume K m s (resolveTol K bt))))
    ∧ robust_brep_union KC7u2 [some cleanBrep, some cleanBrep] none true
        = (none, false, Method.noneLabel) := by
  constructor
  · intro K m s bt cv mv hm hs hmv hiv hd hdl
    unfold robust_brep_difference
    simp only [hm, hs, Bool.not_true, Bool.false_eq_true, if_false]
    rw [if_neg hiv, hmv, diffStrategies_all_fail K m s _ _ hd hdl]
  · set_option maxRecDepth 100000 in with_unfolding_all decide

/-- C7 witness: the amended difference behaviour at a concrete all-failing
kernel with unit intersection volume. -/
theorem C7_witness :
    cleanBrep.isValid = true
    ∧ ¬ compute_intersection_volume KC7d cleanBrep cleanBrep
        (resolveTol KC7d none) < 1/1000
    ∧ robust_brep_difference KC7d (some cleanBrep) (some cleanBrep) none true
        = Except.error (DiffError.exhausted 1
            ((get_brep_volume KC7d cleanBrep).getD 0)
            (compute_intersection_volume KC7d cleanBrep cleanBrep
              (resolveTol KC7d none))) :=
  ⟨rfl, by with_unfolding_all decide,
    C7_amended.1 KC7d cleanBrep cleanBrep none true 1 rfl rfl rfl
      (by with_unfolding_all decide) (fun _ _ _ => rfl) (fun _ _ _ => rfl)⟩

/-- A `Sequential`-labeled outcome of the union strategy cascade comes
from strategy 6, hence is valid, solid, and carries at most one remaining
defect under the final 10 % validation. -/
theorem union_core_sequential (K : Kernel) (bs : List Brep) (tol : ℚ)
    (r : Brep)
    (h : robust_union_core K bs tol = (some r, true, Method.sequential)) :
    r.isValid = true ∧ r.isSolid = true
      ∧ (validate_union_result_multi K r bs 10 (1/1000)).2.length ≤ 1 := by
  unfold robust_union_core at h
  dsimp only at h
  split at h
  · rename_i o heq
    split at heq
    · split at heq
      · rename_i r1 hatt hval
        injection heq with heq
        rw [← heq] at h
        simp at h
      · exact absurd heq (by simp)
    · exact absurd heq (by simp)
  · rename_i first_issues heq
    split at h
    · rename_i o2 heq2
      obtain ⟨r2, t2, ho, _⟩ :=
        unionStrategy2_shape K bs tol _ _ (ite_none_some _ _ _ heq2)
      rw [ho] at h
      simp at h
    · split at h
      · rename_i o3 heq3
        obtain ⟨off, vec, lastB, raw, _, _, _, _, ho, _⟩ :=
          unionStrategy3_shape K bs _ (ite_none_some _ _ _ heq3)
        rw [ho] at h
        simp at h
      · split at h
        · rename_i o4 heq4
          obtain ⟨r4, ho, _⟩ :=
            unionStrategy4_shape K bs tol _ (ite_none_some _ _ _ heq4)
          rw [ho] at h
          simp at h
        · split at h
          · rename_i o5 heq5
            obtain ⟨r5, name5, ho, _⟩ := unionStrategy5_shape K bs tol _ heq5
            rw [ho] at h
            simp at h
          · split at h
            · rename_i o6 heq6
              obtain ⟨r6, ho, hv6, hs6, hlen6⟩ :=
                unionStrategy6_shape K bs tol _ heq6
              rw [ho] at h
              simp only [Prod.mk.injEq, Option.some.injEq] at h
              rw [← h.1]
              exact ⟨hv6, hs6, hlen6⟩
            · split at h
              · rename_i o7 heq7
                obtain ⟨r7, ho, _⟩ :=
                  unionStrategy7_shape K bs _ (ite_none_some _ _ _ heq7)
                rw [ho] at h
                simp at h
              · simp at h

/-- C2 counterexample: the union engine returns a result whose validation
still lists a defect (`NakedEdges=2`) under the label `Sequential`, which
does not disclose the defect — refuting the claim that a result with
outstanding defects is only ever returned under an
`Imperfect(<defect-list>)` label. -/
theorem C2_counterexample :
    robust_brep_union KC2 [some cleanBrep, some cleanBrep] none true
      = (some nakedBrep, true, Method.sequential)
    ∧ (validate_union_result_multi KC2 nakedBrep [cleanBrep, cleanBrep]
        10 (1/1000)).2 = [Issue.nakedEdges 2] := by
  constructor
  · set_option maxRecDepth 100000 in with_unfolding_all decide
  · set_option maxRecDepth 100000 in with_unfolding_all decide

/-- C2 amended: in the difference engine a retained candidate is returned
(as a success) only if it is at least solid — manifoldness and validity
are not required — and always under the `Imperfect(<defect-list>)` label;
the union engine has no `Imperfect` fallback, and its sequential strategy
may return a valid solid result that still carries (at most) one
undisclosed defect under the label `Sequential`. -/
theorem C2_amended :
    (∀ (K : Kernel) (mo so : Option Brep) (bt : Option ℚ) (cv : Bool)
        (r : Brep) (iss : List Issue),
      robust_brep_difference K mo so bt cv
          = Except.ok (r, true, Method.imperfect iss) →
      r.isSolid = true)
    ∧ (∀ (K : Kernel) (inputs : List (Option Brep)) (bt : Option ℚ)
        (cv : Bool) (r : Brep),
      robust_brep_union K inputs bt cv = (some r, true, Method.sequential) →
      r.isValid = true ∧ r.isSolid = true
        ∧ (validate_union_result_multi K r (filterValidBreps inputs)
            10 (1/1000)).2.length ≤ 1) := by
  constructor
  · intro K mo so bt cv r iss h
    unfold robust_brep_difference at h
    split at h
    · exact absurd h (by simp)
    · split at h
      · exact absurd h (by simp)
      · split at h
        · exact absurd h (by simp)
        · split at h
          · exact absurd h (by simp)
          · dsimp only at h
            split at h
            · exact absurd h (by simp)
            · split at h
              · exact absurd h (by simp)
              · split at h
                · rename_i o b1 heq
                  injection h with h
                  obtain ⟨_, hni, _⟩ := diffStrategies_some _ _ _ _ _ _ _ heq
                  rw [h] at hni
                  exact absurd rfl (hni iss)
                · rename_i br bi heq
                  split at h
                  · rename_i hsolid
                    injection h with h
                    rw [Prod.mk.injEq] at h
                    rw [← h.1]
                    exact hsolid
                  · exact absurd h (by simp)
                · exact absurd h (by simp)
  · intro K inputs bt cv r h
    unfold robust_brep_union at h
    cases hfv : filterValidBreps inputs with
    | nil =>
      rw [hfv] at h
      simp at h
    | cons b0 tail =>
      cases tail with
      | nil =>
        rw [hfv] at h
        simp at h
      | cons b1 rest =>
        rw [hfv] at h
        exact union_core_sequential K (b0 :: b1 :: rest) (resolveTol K bt) r h

/-- C2 witness: a concrete `Imperfect` difference return whose candidate
the amended claim certifies solid, and a concrete `Sequential` union
return whose candidate it certifies valid and solid with at most one
remaining defect. -/
theorem C2_witness :
    nmBrep.isSolid = true
    ∧ (nakedBrep.isValid = true ∧ nakedBrep.isSolid = true
        ∧ (validate_union_result_multi KC2 nakedBrep
            (filterValidBreps [some cleanBrep, some cleanBrep])
            10 (1/1000)).2.length ≤ 1) :=
  ⟨C2_amended.1 KC2d (some cleanBrep) (some cleanBrep) none true nmBrep
      [Issue.notManifold, Issue.nothingSubtracted]
      (by set_option maxRecDepth 100000 in with_unfolding_all decide),
    C2_amended.2 KC2 [some cleanBrep, some cleanBrep] none false nakedBrep
      (by set_option maxRecDepth 100000 in with_unfolding_all decide)⟩

/-- C5: an accepted union jiggle returns the kernel result translated by
the exact inverse of the offset applied to the jiggled operand (so the
returned geometry is positioned as if no jiggle occurred), while an
accepted difference jiggle returns the kernel result exactly as produced,
with no reverse translation; the composed forward and inverse offsets
cancel. -/
theorem C5_jiggle_inverse_translation :
    (∀ (K : Kernel) (bs : List Brep) (o : Outcome),
      unionStrategy3 K bs = some o →
      ∃ off vec lastB raw,
        off ∈ unionJiggleOffsets ∧ vec ∈ unionJiggleVectors
        ∧ bs.getLast? = some lastB
        ∧ attempt_multi_union K
            (bs.dropLast ++ [K.translate lastB (vsmul off vec)]) (1/100)
            = some raw
        ∧ o = (K.translate raw (vsmul (-off) vec), true, Method.jiggled off))
    ∧ (∀ (K : Kernel) (m s : Brep) (iv bt : ℚ)
        (best best' : Option (Brep × List Issue)) (o : Outcome),
      diffJiggleLoop K m s iv bt diffJigglePairs best = (some o, best') →
      ∃ p, p ∈ diffJigglePairs
        ∧ attempt_boolean_difference K m (K.translate s (vsmul p.1 p.2)) bt
            = some o.1
        ∧ o = (o.1, true, Method.jiggled p.1))
    ∧ (∀ (off : ℚ) (vec : Vec3),
        vadd (vsmul off vec) (vsmul (-off) vec) = vzero) := by
  refine ⟨?_, ?_, ?_⟩
  · intro K bs o h
    obtain ⟨off, vec, lastB, raw, h1, h2, h3, h4, h5, _⟩ :=
      unionStrategy3_shape K bs o h
    exact ⟨off, vec, lastB, raw, h1, h2, h3, h4, h5⟩
  · intro K m s iv bt best best' o h
    obtain ⟨p, hp, hlab, hsucc, hatt, _⟩ :=
      diffJiggleLoop_some K m s iv bt _ best o best' h
    refine ⟨p, hp, hatt, ?_⟩
    rw [← hsucc, ← hlab]
  · intro off vec
    simp only [vadd, vsmul, vzero, Prod.mk.injEq]
    refine ⟨by ring, by ring, by ring⟩

/-- C5 witness: concrete accepted jiggle runs of both engines, with the
theorem's inverse-translation consequences instantiated. -/
theorem C5_witness :
    (∃ off vec lastB raw,
      off ∈ unionJiggleOffsets ∧ vec ∈ unionJiggleVectors
      ∧ ([cleanBrep, cleanBrep] : List Brep).getLast? = some lastB
      ∧ attempt_multi_union KC5u
          (([cleanBrep, cleanBrep] : List Brep).dropLast
            ++ [KC5u.translate lastB (vsmul off vec)]) (1/100)
          = some raw
      ∧ C5uOut = (KC5u.translate raw (vsmul (-off) vec), true,
          Method.jiggled off))
    ∧ (∃ p, p ∈ diffJigglePairs
        ∧ attempt_boolean_difference KC5d cleanBrep
            (KC5d.translate cleanBrep (vsmul p.1 p.2)) (1/1000)
            = some C5dOut.1
        ∧ C5dOut = (C5dOut.1, true, Method.jiggled p.1)) :=
  ⟨C5_jiggle_inverse_translation.1 KC5u [cleanBrep, cleanBrep] C5uOut
      (by set_option maxRecDepth 100000 in with_unfolding_all decide),
    C5_jiggle_inverse_translation.2.1 KC5d cleanBrep cleanBrep 1 (1/1000)
      none none C5dOut
      (by set_option maxRecDepth 100000 in with_unfolding_all decide)⟩

/-- C8 counterexample: the claim says each face-face intersection curve is
sampled at 2-3 parameter points, but the embedded sampling list (from
`crv.PointAt(crv.Domain.ParameterAt(0.5))`, the only sampled point) has
length one. -/
theorem C8_counterexample :
    ¬ (2 ≤ curveSampleFractions.length ∧ curveSampleFractions.length ≤ 3) := by
  decide

/-- C8 amended: the self-intersection heuristic examines at most 50 face
pairs (the first `min(50, C(faceCount,2))` pairs with `i < j` in loop
order), samples exactly one parameter point per intersection curve (the
domain midpoint), classifies a curve as interior when the sampled point is
farther than 0.1 from every edge, and adds one defect per offending face
pair. -/
theorem C8_amended :
    (∀ (K : Kernel) (b : Brep),
      selfIntersectCount K b
        = ((indexPairs b.faceCount).take (maxChecksFor b.faceCount)).countP
            (fun p => pairOffends K b p.1 p.2))
    ∧ (∀ n, ((indexPairs n).take (maxChecksFor n)).length ≤ 50)
    ∧ curveSampleFractions = [1/2]
    ∧ (∀ d : ℚ, distExceeds (some d) = decide (d > 1/10))
    ∧ distExceeds none = true
    ∧ (∀ f : ℚ → Option ℚ,
        curveOffends (CurveInfo.curve f) = distExceeds (f (1/2))) := by
  refine ⟨selfIntersectCount_eq, selfIntersect_bounded, rfl, fun d => rfl,
    rfl, fun f => ?_⟩
  simp [curveOffends, curveSampleFractions]

/-- C9 counterexample: after a `cmpJiggleUnion.doUnionRun` call returns,
the caller's operand store no longer holds the original brep — the jiggle
loop translated the caller's own object in place, refuting the claim that
every combination request leaves the caller's operand solids unchanged. -/
theorem C9_counterexample :
    (doUnionRunS KC9 C9rng 1 (1/10) false [cleanBrep] [0]).1 = [C9movedBrep]
    ∧ C9movedBrep ≠ cleanBrep := by
  constructor
  · set_option maxRecDepth 100000 in with_unfolding_all decide
  · decide

/-- C9 amended: the jiggle strategies of `robust_brep_union` and
`robust_brep_difference` and the repair strategy of
`robust_brep_difference` mutate only freshly duplicated cells, leaving
every caller-visible operand cell unchanged; cmpJiggleUnion's
`randomNudge` instead writes the operand's own cell (translating the
caller's brep in place), which is why `doUnionRun` moves the caller's
operands. -/
theorem C9_amended :
    (∀ (K : Kernel) (s : Store) (operands : List Ref) (off : ℚ) (vec : Vec3)
        (r : Ref), r < s.length →
      readRef (unionJiggleAttemptS K s operands off vec).1 r = readRef s r)
    ∧ (∀ (K : Kernel) (s : Store) (mr sr : Ref) (iv bt off : ℚ) (vec : Vec3)
        (r : Ref), r < s.length →
      readRef (diffJiggleAttemptS K s mr sr iv bt off vec).1 r = readRef s r)
    ∧ (∀ (K : Kernel) (s : Store) (mr sr : Ref) (bt : ℚ) (r : Ref),
        r < s.length →
      readRef (diffRepairS K s mr sr bt).1 r = readRef s r)
    ∧ (∀ (K : Kernel) (s : Store) (r : Ref) (v : Vec3), r < s.length →
      readRef (randomNudgeS K s r v) r = K.translate (readRef s r) v) :=
  ⟨fun K s os off vec r h => unionJiggleAttemptS_frame K s os off vec r h,
    fun K s mr sr iv bt off vec r h =>
      diffJiggleAttemptS_frame K s mr sr iv bt off vec r h,
    fun K s mr sr bt r h => diffRepairS_frame K s mr sr bt r h,
    fun K s r v h => randomNudgeS_write K s r v h⟩

/-- C9 witness: the amended frame properties at concrete stores. -/
theorem C9_witness :
    readRef (unionJiggleAttemptS inertKernel [cleanBrep] [0] (1/100)
        (0, 0, 1)).1 0 = readRef [cleanBrep] 0
    ∧ readRef (diffJiggleAttemptS inertKernel [cleanBrep, cleanBrep] 0 1 1
        (1/1000) (1/1000) (0, 0, 1)).1 1 = readRef [cleanBrep, cleanBrep] 1
    ∧ readRef (diffRepairS inertKernel [cleanBrep, cleanBrep] 0 1
        (1/1000)).1 0 = readRef [cleanBrep, cleanBrep] 0
    ∧ readRef (randomNudgeS inertKernel [cleanBrep] 0 (1, 0, 0)) 0
        = inertKernel.translate (readRef [cleanBrep] 0) (1, 0, 0) :=
  ⟨C9_amended.1 inertKernel [cleanBrep] [0] (1/100) (0, 0, 1) 0 (by decide),
    C9_amended.2.1 inertKernel [cleanBrep, cleanBrep] 0 1 1 (1/1000) (1/1000)
      (0, 0, 1) 1 (by decide),
    C9_amended.2.2.1 inertKernel [cleanBrep, cleanBrep] 0 1 (1/1000) 0
      (by decide),
    C9_amended.2.2.2 inertKernel [cleanBrep] 0 (1, 0, 0) (by decide)⟩

/-- C10 counterexample: the list-API difference attempt receives two
pieces that joining would merge into exactly one body, yet it returns the
largest piece without attempting the join — refuting the claim that every
difference attempt joins first. -/
theorem C10_counterexample :
    KC10.booleanDifferenceList cleanBrep cleanBrep (1/1000)
        = some [pieceA, pieceB]
    ∧ KC10.joinBreps [pieceA, pieceB] (1/1000) = some [joinedPiece]
    ∧ attempt_difference_with_lists KC10 cleanBrep cleanBrep (1/1000)
        = some pieceA
    ∧ pieceA ≠ joinedPiece := by
  refine ⟨rfl, by with_unfolding_all decide,
    by with_unfolding_all decide, by with_unfolding_all decide⟩

/-- C10 amended: on a multi-piece kernel result the pair-API attempt
(`attempt_boolean_difference`) first joins at the operation tolerance and
only falls back to the largest piece when joining does not yield exactly
one body, while the list-API attempt (`attempt_difference_with_lists`)
returns the largest piece directly with no join attempt; either way the
other pieces are discarded, the returned piece being a member of maximal
volume key. -/
theorem C10_amended :
    (∀ (K : Kernel) (m s : Brep) (t : ℚ) (r : Brep) (rs : List Brep)
        (j : Brep),
      K.booleanDifference m s t = some (r :: rs) → rs ≠ [] →
      K.joinBreps (r :: rs) t = some [j] →
      attempt_boolean_difference K m s t = some j)
    ∧ (∀ (K : Kernel) (m s : Brep) (t : ℚ) (r : Brep) (rs : List Brep),
      K.booleanDifference m s t = some (r :: rs) → rs ≠ [] →
      (∀ j, K.joinBreps (r :: rs) t ≠ some [j]) →
      attempt_boolean_difference K m s t = some (pyMaxByVol K r rs))
    ∧ (∀ (K : Kernel) (m s : Brep) (t : ℚ) (r : Brep) (rs : List Brep),
      K.booleanDifferenceList m s t = some (r :: rs) → rs ≠ [] →
      attempt_difference_with_lists K m s t = some (pyMaxByVol K r rs))
    ∧ (∀ (K : Kernel) (r : Brep) (rs : List Brep),
      pyMaxByVol K r rs ∈ r :: rs
        ∧ ∀ b ∈ r :: rs, volKey K b ≤ volKey K (pyMaxByVol K r rs)) := by
  refine ⟨?_, ?_, ?_, fun K r rs => pyMaxByVol_spec K rs r⟩
  · intro K m s t r rs j hk hne hj
    unfold attempt_boolean_difference
    rw [hk]
    dsimp only
    rw [if_neg hne, hj]
  · intro K m s t r rs hk hne hj
    unfold attempt_boolean_difference
    rw [hk]
    dsimp only
    rw [if_neg hne]
    cases hjoin : K.joinBreps (r :: rs) t with
    | none => rfl
    | some js =>
      cases js with
      | nil => rfl
      | cons j0 js2 =>
        cases js2 with
        | nil => exact absurd hjoin (hj j0)
        | cons j1 js3 => rfl
  · intro K m s t r rs hk hne
    unfold attempt_difference_with_lists
    rw [hk]
    dsimp only
    rw [if_neg hne]

/-- C10 witness: the amended behaviour at concrete kernels — join-success,
join-failure and list-API runs, plus the maximality of the kept piece. -/
theorem C10_witness :
    attempt_boolean_difference KC10b cleanBrep cleanBrep (1/1000)
        = some joinedPiece
    ∧ attempt_boolean_difference KC10c cleanBrep cleanBrep (1/1000)
        = some (pyMaxByVol KC10c pieceA [pieceB])
    ∧ attempt_difference_with_lists KC10 cleanBrep cleanBrep (1/1000)
        = some (pyMaxByVol KC10 pieceA [pieceB])
    ∧ (pyMaxByVol KC10 pieceA [pieceB] ∈ [pieceA, pieceB]
        ∧ ∀ b ∈ [pieceA, pieceB],
          volKey KC10 b ≤ volKey KC10 (pyMaxByVol KC10 pieceA [pieceB])) :=
  ⟨C10_amended.1 KC10b cleanBrep cleanBrep (1/1000) pieceA [pieceB]
      joinedPiece rfl (by decide) (by with_unfolding_all decide),
    C10_amended.2.1 KC10c cleanBrep cleanBrep (1/1000) pieceA [pieceB]
      rfl (by decide) (fun j h => Option.noConfusion h),
    C10_amended.2.2.1 KC10 cleanBrep cleanBrep (1/1000) pieceA [pieceB]
      rfl (by decide),
    C10_amended.2.2.2 KC10 pieceA [pieceB]⟩
